import Mathlib

/-!
# Chat UI (`src/chat_ui/app.js`): conversation store, persistence, rendering, reply streaming

A shallow embedding of the script's model operations.  Module state that the
script keeps in closure variables (`convos`, `activeId`), the durable slot of
`localStorage`, the queue of `requestAnimationFrame` callbacks and the parts of
the DOM the script writes are fields of one record, `World`.  The impure
capabilities the script consumes (`uuid()`, `Date.now()`, `JSON.stringify`,
`JSON.parse`, the storage quota) are fields of `Env`.
-/

namespace ChatUI

/-! ## Strings and JSON values -/

/-- A JavaScript string, as its sequence of UTF-16 code units. -/
abbrev JSString := List Nat

/-- UTF-16 code units of one Unicode scalar value. -/
def utf16 (c : Char) : List Nat :=
  if c.toNat < 65536 then [c.toNat]
  else [55296 + (c.toNat - 65536) / 1024, 56320 + (c.toNat - 65536) % 1024]

/-- The JavaScript string written by a source literal. -/
def js (s : String) : JSString := s.toList.flatMap utf16

/-- Line 10: `const MAX_CONVOS = 50`. -/
def MAX_CONVOS : Nat := 50

/-- Line 11: `const TYPING_STEP_TARGET = 80`. -/
def TYPING_STEP_TARGET : Nat := 80

/-- The default title, `"New chat"` (lines 72, 127, 129, 157). -/
def NEW_CHAT : JSString := [78, 101, 119, 32, 99, 104, 97, 116]

/-- The role string `"user"` (line 127, 182). -/
def USER : JSString := [117, 115, 101, 114]

/-- Values that `JSON.parse` can produce or a global binding can hold. -/
inductive JSValue where
  | undefined : JSValue
  | null : JSValue
  | bool (b : Bool) : JSValue
  | num (n : Nat) : JSValue
  | str (s : JSString) : JSValue
  | arr (xs : List JSValue) : JSValue
  | obj (fields : List (JSString × JSValue)) : JSValue

/-- Result of `v.slice(0, n)`: defined on arrays and strings, a TypeError
(`none`) on every other value. -/
def JSValue.slice0 (v : JSValue) (n : Nat) : Option JSValue :=
  match v with
  | JSValue.arr xs => some (JSValue.arr (xs.take n))
  | JSValue.str s => some (JSValue.str (s.take n))
  | _ => none

/-- Whether a value is an object carrying a property of the given name. -/
def JSValue.hasProperty (v : JSValue) (name : JSString) : Bool :=
  match v with
  | JSValue.obj fields => fields.any (fun f => f.1 == name)
  | _ => false

/-! ## Data model -/

/-- A message object, lines 118-123. -/
structure Message where
  id : JSString
  role : JSString
  text : JSString
  ts : Nat
  deriving DecidableEq, Repr

/-- A conversation object, lines 74-80. -/
structure Conversation where
  id : JSString
  title : JSString
  createdAt : Nat
  updatedAt : Nat
  messages : List Message
  deriving DecidableEq, Repr

/-- The JSON value of a message (property order as in the object literal). -/
def Message.toJS (m : Message) : JSValue :=
  JSValue.obj [(js "id", JSValue.str m.id), (js "role", JSValue.str m.role),
    (js "text", JSValue.str m.text), (js "ts", JSValue.num m.ts)]

/-- The JSON value of a conversation. -/
def Conversation.toJS (c : Conversation) : JSValue :=
  JSValue.obj [(js "id", JSValue.str c.id), (js "title", JSValue.str c.title),
    (js "createdAt", JSValue.num c.createdAt), (js "updatedAt", JSValue.num c.updatedAt),
    (js "messages", JSValue.arr (c.messages.map Message.toJS))]

/-! ## The DOM the script writes, and pending frame callbacks -/

/-- A child of the `convoList` element built by `renderConvos` (lines 141-166). -/
inductive ListNode where
  | newChatBtn : ListNode
  | convo (id : JSString) (active : Bool) (text : JSString) : ListNode
  deriving DecidableEq, Repr

/-- A child of the `messages` element: a finished div, or the div of reply
stream number `h`, whose text is still being written by its ticks. -/
inductive MsgNode where
  | static (me : Bool) (text : JSString) : MsgNode
  | live (h : Nat) : MsgNode
  deriving DecidableEq, Repr

/-- A callback registered with `requestAnimationFrame` and not yet run. -/
inductive Frame where
  | convoList (frag : List ListNode) : Frame
  | messages (frag : List MsgNode) : Frame
  | addMessage (div : MsgNode) : Frame
  | tick (h : Nat) : Frame
  deriving DecidableEq, Repr

/-- The view a frame callback repaints. -/
def Frame.isConvoList : Frame → Bool
  | Frame.convoList _ => true
  | _ => false

/-- The view a frame callback repaints. -/
def Frame.isMessages : Frame → Bool
  | Frame.messages _ => true
  | _ => false

/-- Closure state of one `streamBotReply` call (lines 268-283): the argument,
`step`, the cursor `i`, the text of its div, whether `tick` is registered for
the next frame, and how many times `tick` has run. -/
structure Typing where
  fullText : JSString
  step : Nat
  i : Nat
  textContent : JSString
  pending : Bool
  ticks : Nat
  deriving DecidableEq, Repr

/-! ## Environment and state -/

/-- What the script takes from its host.  `uuid n` and `now n` are the results
of the `n`-th call of `uuid()` and `Date.now()`.  `stringify`/`parse` are
`JSON.stringify`/`JSON.parse` (`none`: a SyntaxError) over raw storage strings
`R`; `accepts raw` says whether `localStorage.setItem` takes the value without
throwing.  `outerConvos` is what the identifier `convos` denotes in the scope
of `saveConvos` (see there); `none` when it is undeclared. -/
structure Env (R : Type) where
  uuid : Nat → JSString
  now : Nat → Nat
  stringify : JSValue → R
  parse : R → Option JSValue
  accepts : R → Bool
  outerConvos : Option JSValue

/-- State of the page.  `saveCalls` and `setItemCalls` count the calls of
`saveConvos` and of `localStorage.setItem`; `warnings` counts `console.warn`. -/
structure World (R : Type) where
  convos : List Conversation
  activeId : Option JSString
  slot : Option R
  uuidCalls : Nat
  nowCalls : Nat
  saveCalls : Nat
  setItemCalls : Nat
  warnings : Nat
  frames : List Frame
  convoListEl : List ListNode
  messagesEl : List MsgNode
  streams : List Typing

variable {R : Type}

/-- The call `requestAnimationFrame(cb)`: the callback joins the queue. -/
def requestAnimationFrame (cb : Frame) (w : World R) : World R :=
  { w with frames := w.frames ++ [cb] }

/-! ## Persistence (lines 27-42) -/

/-- Lines 27-29.  `json` is the result of `getItem`, `none` for `null`;
`JSON.parse(null)` is `null`. -/
def safeParse (E : Env R) (json : Option R) (fallback : JSValue) : JSValue :=
  match json with
  | none => JSValue.null
  | some raw =>
    match E.parse raw with
    | some v => v
    | none => fallback

/-- Lines 30-34. -/
def loadConvos (E : Env R) (w : World R) : List JSValue :=
  match safeParse E w.slot (JSValue.arr []) with
  | JSValue.arr xs => xs
  | _ => []

/-- Lines 35-42.  `saveConvos` is declared in the outer arrow function, next to
`init`; the collection is `let convos` inside `init` (line 60) and so is not in
the lexical scope of this body.  The identifier `convos` here resolves outside
`init`: to `E.outerConvos`.  Undeclared, its evaluation throws a ReferenceError
inside the `try`, which the `catch` turns into a warning; bound to a value
without `slice`, a TypeError, likewise. -/
def saveConvos (E : Env R) (w : World R) : World R :=
  let w := { w with saveCalls := w.saveCalls + 1 }
  match E.outerConvos with
  | none => { w with warnings := w.warnings + 1 }
  | some v =>
    match v.slice0 MAX_CONVOS with
    | none => { w with warnings := w.warnings + 1 }
    | some cut =>
      let raw := E.stringify cut
      let w := { w with setItemCalls := w.setItemCalls + 1 }
      if E.accepts raw then { w with slot := some raw }
      else { w with warnings := w.warnings + 1 }

/-! ## Rendering (lines 135-199) -/

/-- Lines 195-199: `& < > " '` become entities. -/
def escapeHtml (s : JSString) : JSString :=
  s.flatMap fun c =>
    if c = 38 then js "&amp;"
    else if c = 60 then js "&lt;"
    else if c = 62 then js "&gt;"
    else if c = 34 then js "&quot;"
    else if c = 39 then js "&#039;"
    else [c]

/-- The expression `a || b` on strings: the empty string is falsy. -/
def orElse (a b : JSString) : JSString := if a = [] then b else a

/-- Lines 138-166: the fragment `renderConvos` builds from the current state. -/
def convoFragment (w : World R) : List ListNode :=
  ListNode.newChatBtn ::
    w.convos.map fun c =>
      ListNode.convo c.id (decide (some c.id = w.activeId)) (escapeHtml (orElse c.title NEW_CHAT))

/-- The lookup `convos.find(x => x.id === activeId)` (lines 116, 176); `activeId` is
`null` or a string. -/
def findActive (w : World R) : Option Conversation :=
  match w.activeId with
  | none => none
  | some a => w.convos.find? fun x => x.id == a

/-- Lines 175-193. -/
def renderMessages (w : World R) : World R :=
  match findActive w with
  | none => { w with messagesEl := [] }
  | some c =>
    requestAnimationFrame
      (Frame.messages (c.messages.map fun m => MsgNode.static (m.role == USER) m.text)) w

/-- The conversation object built at lines 74-80 in state `w`. -/
def newConvo (E : Env R) (w : World R) (title : JSString) : Conversation :=
  { id := E.uuid w.uuidCalls, title := title, createdAt := E.now w.nowCalls,
    updatedAt := E.now (w.nowCalls + 1), messages := [] }

/-- The state after lines 73-82 of `createConversation`: the new conversation
prepended, the collection cut at the cap, the active pointer set. -/
def created (E : Env R) (w : World R) (title : JSString) : World R :=
  { w with
    uuidCalls := w.uuidCalls + 1
    nowCalls := w.nowCalls + 2
    convos := (newConvo E w title :: w.convos).take MAX_CONVOS
    activeId := some (E.uuid w.uuidCalls) }

mutual
/-- Lines 72-87; gives the new state and the returned id. -/
def createConversation (E : Env R) (w : World R) (title : JSString) : World R × JSString :=
  let w1 := created E w title
  let w2 := saveConvos E w1
  let w3 := renderConvos E w2
  (renderMessages w3, E.uuid w.uuidCalls)
termination_by 1
decreasing_by
  simp_wf
  have hkeep : (saveConvos E (created E w title)).convos = (created E w title).convos := by
    unfold saveConvos
    dsimp only
    split
    · rfl
    · split
      · rfl
      · split <;> rfl
  rw [hkeep]
  simp [created, MAX_CONVOS]

/-- Lines 135-173. -/
def renderConvos (E : Env R) (w : World R) : World R :=
  if _hempty : w.convos.isEmpty = true then (createConversation E w NEW_CHAT).1
  else requestAnimationFrame (Frame.convoList (convoFragment w)) w
termination_by if w.convos.isEmpty then 2 else 0
decreasing_by
  simp_wf
  rw [if_pos (List.isEmpty_iff.mp _hempty)]
  decide
end

/-! ## Model operations (lines 89-132) -/

/-- Lines 89-93. -/
def setActiveConversation (E : Env R) (w : World R) (id : JSString) : World R :=
  renderMessages (renderConvos E { w with activeId := some id })

/-- The characters removed by `trim()` and matched by `\s`: the WhiteSpace and
LineTerminator code units of ECMAScript. -/
def isWhiteSpace (c : Nat) : Bool :=
  c = 9 || c = 10 || c = 11 || c = 12 || c = 13 || c = 32 || c = 160 || c = 5760 ||
  (8192 ≤ c && c ≤ 8202) || c = 8232 || c = 8233 || c = 8239 || c = 8287 ||
  c = 12288 || c = 65279

/-- The method `s.trim()`. -/
def trim (s : JSString) : JSString :=
  ((s.dropWhile isWhiteSpace).reverse.dropWhile isWhiteSpace).reverse

/-- The call `s.replace(/\s+/g, " ")`; `inRun` says that the previous code unit was
white space, whose run has already been replaced. -/
def collapseWhiteSpace (inRun : Bool) : JSString → JSString
  | [] => []
  | c :: cs =>
    if isWhiteSpace c then
      if inRun then collapseWhiteSpace true cs else 32 :: collapseWhiteSpace true cs
    else c :: collapseWhiteSpace false cs

/-- Line 128: `text.trim().replace(/\s+/g, " ").slice(0, 40)`. -/
def deriveTitle (text : JSString) : JSString :=
  (collapseWhiteSpace false (trim text)).take 40

/-- Lines 98-99 applied to the conversation found. -/
def renamed (E : Env R) (w : World R) (c : Conversation) (title : JSString) : Conversation :=
  { c with title := orElse (trim (orElse title [])) c.title, updatedAt := E.now w.nowCalls }

/-- Lines 95-102. -/
def renameConversation (E : Env R) (w : World R) (id title : JSString) : World R :=
  match w.convos.findIdx? (fun x => x.id == id) with
  | none => w
  | some k =>
    match w.convos[k]? with
    | none => w
    | some c =>
      renderConvos E
        (saveConvos E
          { w with convos := w.convos.set k (renamed E w c title), nowCalls := w.nowCalls + 1 })

/-- Line 107: `convos.splice(i, 1)`. -/
def spliced (w : World R) (i : Nat) : World R :=
  { w with convos := w.convos.eraseIdx i }

/-- Line 108, right-hand side: `convos[0]?.id || createConversation()`,
evaluated in `w`; gives the state after the evaluation and the value. -/
def firstIdOrCreate (E : Env R) (w : World R) : World R × JSString :=
  match w.convos.head? with
  | some c => if c.id = [] then createConversation E w NEW_CHAT else (w, c.id)
  | none => createConversation E w NEW_CHAT

/-- Line 108, the assignment `activeId = convos[0]?.id || createConversation()`. -/
def reassigned (E : Env R) (w : World R) : World R :=
  { (firstIdOrCreate E w).1 with activeId := some (firstIdOrCreate E w).2 }

/-- Lines 104-113. -/
def deleteConversation (E : Env R) (w : World R) (id : JSString) : World R :=
  match w.convos.findIdx? (fun x => x.id == id) with
  | none => w
  | some i =>
    let w1 := spliced w i
    let w2 := if w1.activeId = some id then reassigned E w1 else w1
    renderMessages (renderConvos E (saveConvos E w2))

/-- Line 116: the index of `convos.find(x => x.id === activeId) || convos[0]`
in the collection, `none` when there is no such conversation. -/
def appendTarget (w : World R) : Option Nat :=
  let found : Option Nat :=
    match w.activeId with
    | none => none
    | some a => w.convos.findIdx? fun x => x.id == a
  match found with
  | some k => some k
  | none => if w.convos.isEmpty then none else some 0

/-- Lines 118-130 applied to the conversation `c`: the message pushed,
`updatedAt` advanced, the title derived on the first user message. -/
def appended (E : Env R) (w : World R) (c : Conversation) (role text : JSString) : Conversation :=
  let m : Message :=
    { id := E.uuid w.uuidCalls, role := role, text := text, ts := E.now w.nowCalls }
  let c1 : Conversation :=
    { c with messages := c.messages ++ [m], updatedAt := E.now (w.nowCalls + 1) }
  if role = USER ∧ (c1.title = [] ∨ c1.title = NEW_CHAT) ∧ c1.messages.length = 1 then
    { c1 with title := orElse (deriveTitle text) NEW_CHAT }
  else c1

/-- Lines 115-132. -/
def appendMessage (E : Env R) (w : World R) (role text : JSString) : World R :=
  match appendTarget w with
  | none => w
  | some k =>
    match w.convos[k]? with
    | none => w
    | some c =>
      saveConvos E
        { w with
          convos := w.convos.set k (appended E w c role text)
          uuidCalls := w.uuidCalls + 1
          nowCalls := w.nowCalls + 2 }

/-! ## Message helpers and reply streaming (lines 256-284) -/

/-- Lines 256-265; `me` says that `who` is `"me"`. -/
def addMessage (w : World R) (text : JSString) (me : Bool) : World R :=
  requestAnimationFrame (Frame.addMessage (MsgNode.static me text)) w

/-- Lines 272-273 and 283: the closure as `streamBotReply` leaves it, with the
first `tick` registered. -/
def streamStart (fullText : JSString) : Typing :=
  { fullText := fullText
    step := max 2 (fullText.length / TYPING_STEP_TARGET)
    i := 0
    textContent := []
    pending := true
    ticks := 0 }

/-- Lines 274-282: one run of `tick`. -/
def tick (s : Typing) : Typing :=
  { s with
    i := s.i + s.step
    textContent := s.fullText.take (s.i + s.step)
    pending := decide (s.i + s.step < s.fullText.length)
    ticks := s.ticks + 1 }

/-- One display frame seen from a single stream: `tick` runs if it is
registered. -/
def nextFrame (s : Typing) : Typing :=
  if s.pending then tick s else s

/-- The stream after `k` display frames. -/
def afterFrames : Nat → Typing → Typing
  | 0, s => s
  | k + 1, s => nextFrame (afterFrames k s)

/-- Lines 267-284.  The function has no `return`: its value is `undefined`. -/
def streamBotReply (w : World R) (fullText : JSString) : World R × JSValue :=
  (requestAnimationFrame (Frame.tick w.streams.length)
    { w with
      messagesEl := w.messagesEl ++ [MsgNode.live w.streams.length]
      streams := w.streams ++ [streamStart fullText] },
   JSValue.undefined)

/-- The browser runs one registered callback. -/
def fire (f : Frame) (w : World R) : World R :=
  match f with
  | Frame.convoList frag => { w with convoListEl := frag }
  | Frame.messages frag => { w with messagesEl := frag }
  | Frame.addMessage div => { w with messagesEl := w.messagesEl ++ [div] }
  | Frame.tick h =>
    match w.streams[h]? with
    | none => w
    | some s =>
      if (tick s).pending then
        requestAnimationFrame (Frame.tick h) { w with streams := w.streams.set h (tick s) }
      else { w with streams := w.streams.set h (tick s) }

/-- One display frame: every callback registered before it runs, in order of
registration; callbacks registered meanwhile wait for the next frame. -/
def displayFrame (w : World R) : World R :=
  w.frames.foldl (fun acc f => fire f acc) { w with frames := [] }

/-- A sequence of `createConversation` calls, one per title. -/
def createAll (E : Env R) (w : World R) (titles : List JSString) : World R :=
  titles.foldl (fun acc t => (createConversation E acc t).1) w

/-! ## Events of the page -/

/-- What can happen on the page between two moments: a call of one of the
operations by an event handler or timer, or a display frame. -/
inductive Event where
  | create (title : JSString) : Event
  | select (id : JSString) : Event
  | rename (id title : JSString) : Event
  | delete (id : JSString) : Event
  | append (role text : JSString) : Event
  | addMessage (text : JSString) (me : Bool) : Event
  | stream (fullText : JSString) : Event
  | frame : Event
  deriving DecidableEq, Repr

/-- The page after one event. -/
def step (E : Env R) (w : World R) : Event → World R
  | Event.create title => (createConversation E w title).1
  | Event.select id => setActiveConversation E w id
  | Event.rename id title => renameConversation E w id title
  | Event.delete id => deleteConversation E w id
  | Event.append role text => appendMessage E w role text
  | Event.addMessage text me => addMessage w text me
  | Event.stream fullText => (streamBotReply w fullText).1
  | Event.frame => displayFrame w

/-- The page after a sequence of events. -/
def run (E : Env R) (w : World R) (events : List Event) : World R :=
  events.foldl (step E) w

/-- Whether an event is a display frame. -/
def Event.isFrame : Event → Bool
  | Event.frame => true
  | _ => false

/-- Whether a registered callback is the tick of stream `h`. -/
def Frame.isTickOf (h : Nat) : Frame → Bool
  | Frame.tick k => decide (k = h)
  | _ => false

/-- Stream `h` is in closure state `s`, and its tick is registered exactly once
if `s.pending` and not at all otherwise. -/
def Streaming (h : Nat) (s : Typing) (w : World R) : Prop :=
  w.streams[h]? = some s ∧
  w.frames.countP (Frame.isTickOf h) = if s.pending then 1 else 0

/-- The step from `w` to `w1` leaves the reply streams and the registered ticks
of stream `h` as they are. -/
def Undisturbed (h : Nat) (w w1 : World R) : Prop :=
  w1.streams = w.streams ∧
  w1.frames.countP (Frame.isTickOf h) = w.frames.countP (Frame.isTickOf h)

/-- No registered tick belongs to a stream that does not exist yet. -/
def TicksKnown (w : World R) : Prop :=
  ∀ k, w.streams.length ≤ k → w.frames.countP (Frame.isTickOf k) = 0

/-! ## A concrete host, for evaluating the operations -/

/-- A host whose `n`-th identifier is `"u"` followed by the code unit `48 + n`,
whose clock reads `1000 + n`, whose JSON codec is the identity on values, whose
storage takes every write, and where `convos` is undeclared outside `init`. -/
def host : Env JSValue :=
  { uuid := fun n => [117, 48 + n]
    now := fun n => 1000 + n
    stringify := fun v => v
    parse := fun raw => some raw
    accepts := fun _ => true
    outerConvos := none }

/-- The page before `init` has created anything. -/
def emptyWorld : World JSValue :=
  { convos := [], activeId := none, slot := none, uuidCalls := 0, nowCalls := 0,
    saveCalls := 0, setItemCalls := 0, warnings := 0, frames := [],
    convoListEl := [], messagesEl := [], streams := [] }

/-- A page holding the given collection, nothing pending, nothing stored. -/
def worldOf (convos : List Conversation) (activeId : Option JSString) : World JSValue :=
  { emptyWorld with convos := convos, activeId := activeId }

/-- A conversation with the given id and title and no messages. -/
def blank (id title : JSString) : Conversation :=
  { id := id, title := title, createdAt := 0, updatedAt := 0, messages := [] }

/-- A conversation titled "New chat" that already holds one assistant message
(a reply that arrived after the user switched to this conversation). -/
def repliedConvo : Conversation :=
  { id := [97], title := NEW_CHAT, createdAt := 0, updatedAt := 5,
    messages := [{ id := [109], role := js "assistant", text := js "Echoing: x", ts := 5 }] }

/-! ## The tick count in the specification's words -/

/-- The per-tick character count of line 273 for a reply of length `n`. -/
def stepOf (n : Nat) : Nat := max 2 (n / TYPING_STEP_TARGET)

/-- The number of ticks in the specification's words:
`max(1, ceil(n / max(2, floor(n / 80))))` for a reply of length `n`. -/
def ticksClaimed (n : Nat) : Nat :=
  max 1 ((n + max 2 (n / 80) - 1) / max 2 (n / 80))

/-! ## Frame lemmas: what each step leaves unchanged -/

theorem saveConvos_convos (E : Env R) (w : World R) : (saveConvos E w).convos = w.convos := by
  unfold saveConvos
  dsimp only
  split
  · rfl
  · split
    · rfl
    · split <;> rfl

theorem saveConvos_activeId (E : Env R) (w : World R) :
    (saveConvos E w).activeId = w.activeId := by
  unfold saveConvos
  dsimp only
  split
  · rfl
  · split
    · rfl
    · split <;> rfl

theorem saveConvos_uuidCalls (E : Env R) (w : World R) :
    (saveConvos E w).uuidCalls = w.uuidCalls := by
  unfold saveConvos
  dsimp only
  split
  · rfl
  · split
    · rfl
    · split <;> rfl

theorem saveConvos_frames (E : Env R) (w : World R) : (saveConvos E w).frames = w.frames := by
  unfold saveConvos
  dsimp only
  split
  · rfl
  · split
    · rfl
    · split <;> rfl

theorem saveConvos_saveCalls (E : Env R) (w : World R) :
    (saveConvos E w).saveCalls = w.saveCalls + 1 := by
  unfold saveConvos
  dsimp only
  split
  · rfl
  · split
    · rfl
    · split <;> rfl

theorem renderMessages_convos (w : World R) : (renderMessages w).convos = w.convos := by
  unfold renderMessages
  split <;> rfl

theorem renderMessages_activeId (w : World R) :
    (renderMessages w).activeId = w.activeId := by
  unfold renderMessages
  split <;> rfl

theorem renderMessages_uuidCalls (w : World R) :
    (renderMessages w).uuidCalls = w.uuidCalls := by
  unfold renderMessages
  split <;> rfl

theorem renderMessages_saveCalls (w : World R) :
    (renderMessages w).saveCalls = w.saveCalls := by
  unfold renderMessages
  split <;> rfl

theorem renderConvos_of_ne_nil (E : Env R) (w : World R) (h : w.convos ≠ []) :
    renderConvos E w = requestAnimationFrame (Frame.convoList (convoFragment w)) w := by
  rw [renderConvos]
  have : ¬ (w.convos.isEmpty = true) := by simpa [List.isEmpty_iff] using h
  rw [dif_neg this]

theorem renderConvos_of_nil (E : Env R) (w : World R) (h : w.convos = []) :
    renderConvos E w = (createConversation E w NEW_CHAT).1 := by
  rw [renderConvos]
  have : w.convos.isEmpty = true := by simp [h]
  rw [dif_pos this]

theorem created_convos_ne_nil (E : Env R) (w : World R) (title : JSString) :
    (created E w title).convos ≠ [] := by
  simp [created, MAX_CONVOS]

theorem createConversation_eq (E : Env R) (w : World R) (title : JSString) :
    createConversation E w title =
      (renderMessages
        (requestAnimationFrame (Frame.convoList (convoFragment (saveConvos E (created E w title))))
          (saveConvos E (created E w title))),
       E.uuid w.uuidCalls) := by
  rw [createConversation, renderConvos_of_ne_nil]
  rw [saveConvos_convos]
  exact created_convos_ne_nil E w title

theorem createConversation_convos (E : Env R) (w : World R) (title : JSString) :
    (createConversation E w title).1.convos = (newConvo E w title :: w.convos).take MAX_CONVOS := by
  rw [createConversation_eq]
  show (renderMessages _).convos = _
  rw [renderMessages_convos]
  show (saveConvos E (created E w title)).convos = _
  rw [saveConvos_convos]
  rfl

theorem createConversation_activeId (E : Env R) (w : World R) (title : JSString) :
    (createConversation E w title).1.activeId = some (E.uuid w.uuidCalls) := by
  rw [createConversation_eq]
  show (renderMessages _).activeId = _
  rw [renderMessages_activeId]
  show (saveConvos E (created E w title)).activeId = _
  rw [saveConvos_activeId]
  rfl

theorem createConversation_uuidCalls (E : Env R) (w : World R) (title : JSString) :
    (createConversation E w title).1.uuidCalls = w.uuidCalls + 1 := by
  rw [createConversation_eq]
  show (renderMessages _).uuidCalls = _
  rw [renderMessages_uuidCalls]
  show (saveConvos E (created E w title)).uuidCalls = _
  rw [saveConvos_uuidCalls]
  rfl

theorem createConversation_saveCalls (E : Env R) (w : World R) (title : JSString) :
    (createConversation E w title).1.saveCalls = w.saveCalls + 1 := by
  rw [createConversation_eq]
  show (renderMessages _).saveCalls = _
  rw [renderMessages_saveCalls]
  show (saveConvos E (created E w title)).saveCalls = _
  rw [saveConvos_saveCalls]
  rfl

theorem createConversation_ret (E : Env R) (w : World R) (title : JSString) :
    (createConversation E w title).2 = E.uuid w.uuidCalls := by
  rw [createConversation_eq]

theorem renderConvos_convos_of_ne_nil (E : Env R) (w : World R) (h : w.convos ≠ []) :
    (renderConvos E w).convos = w.convos := by
  rw [renderConvos_of_ne_nil E w h]
  rfl

theorem renderConvos_activeId_of_ne_nil (E : Env R) (w : World R) (h : w.convos ≠ []) :
    (renderConvos E w).activeId = w.activeId := by
  rw [renderConvos_of_ne_nil E w h]
  rfl

theorem renderConvos_saveCalls_of_ne_nil (E : Env R) (w : World R) (h : w.convos ≠ []) :
    (renderConvos E w).saveCalls = w.saveCalls := by
  rw [renderConvos_of_ne_nil E w h]
  rfl

/-- The tail of an operation (persist, render list, render messages) on a
non-empty collection keeps the collection and the active pointer. -/
theorem persist_render_keeps (E : Env R) (w : World R) (h : w.convos ≠ []) :
    (renderMessages (renderConvos E (saveConvos E w))).convos = w.convos ∧
    (renderMessages (renderConvos E (saveConvos E w))).activeId = w.activeId := by
  have h1 : (saveConvos E w).convos ≠ [] := by rwa [saveConvos_convos]
  rw [renderMessages_convos, renderMessages_activeId, renderConvos_convos_of_ne_nil E _ h1,
    renderConvos_activeId_of_ne_nil E _ h1, saveConvos_convos, saveConvos_activeId]
  exact ⟨rfl, rfl⟩

/-! ## `createConversation` in sequence -/

theorem createAll_snoc (E : Env R) (w : World R) (titles : List JSString) (t : JSString) :
    createAll E w (titles ++ [t]) = (createConversation E (createAll E w titles) t).1 := by
  simp [createAll, List.foldl_append]

theorem createAll_uuidCalls (E : Env R) (w : World R) (titles : List JSString) :
    (createAll E w titles).uuidCalls = w.uuidCalls + titles.length := by
  induction titles using List.reverseRecOn with
  | nil => simp [createAll]
  | append_singleton ts t ih =>
    rw [createAll_snoc, createConversation_uuidCalls, ih]
    simp
    omega

theorem take_cons_take {α : Type} (n : Nat) (a : α) (l : List α) :
    (a :: l.take (n + 1)).take (n + 1) = (a :: l).take (n + 1) := by
  simp [List.take_succ_cons, List.take_take]

/-- Ids of the collection after creating from an empty one: the newest ids
first, cut at the cap. -/
theorem createAll_ids (E : Env R) (w : World R) (h : w.convos = []) (titles : List JSString) :
    (createAll E w titles).convos.map (fun c => c.id) =
      ((List.range titles.length).reverse.map fun k => E.uuid (w.uuidCalls + k)).take
        MAX_CONVOS := by
  induction titles using List.reverseRecOn with
  | nil => simp [createAll, h]
  | append_singleton ts t ih =>
    rw [createAll_snoc, createConversation_convos, List.map_take, List.map_cons, ih]
    simp only [List.length_append, List.length_singleton, List.range_succ, List.reverse_append,
      List.reverse_singleton, List.singleton_append, List.map_cons, newConvo, MAX_CONVOS,
      createAll_uuidCalls]
    exact take_cons_take 49 _ _

theorem host_uuid_injective (i j : Nat) (h : host.uuid i = host.uuid j) : i = j := by
  simp [host] at h
  exact h

/-- C1: after every call in every sequence of `createConversation` calls from
every starting collection, the collection holds at most `MAX_CONVOS` (50)
conversations, the conversation just created is at position 0, `activeId` is
its id (the returned id), and the rest is the previous collection in order, cut
at the cap; and 51 creates with distinct ids from an empty collection leave 50
conversations, the first-created one not among them. -/
theorem C1_create_bounded_newest_first_active (E : Env R) :
    (∀ (w : World R) (titles : List JSString) (t : JSString),
      (createAll E w (titles ++ [t])).convos.length ≤ MAX_CONVOS ∧
      (createAll E w (titles ++ [t])).convos.head? = some (newConvo E (createAll E w titles) t) ∧
      (createAll E w (titles ++ [t])).activeId = some (newConvo E (createAll E w titles) t).id ∧
      (createConversation E (createAll E w titles) t).2 =
        (newConvo E (createAll E w titles) t).id ∧
      (createAll E w (titles ++ [t])).convos.tail =
        (createAll E w titles).convos.take (MAX_CONVOS - 1)) ∧
    (∀ (w : World R) (titles : List JSString), w.convos = [] →
      titles.length = MAX_CONVOS + 1 →
      (∀ i j, i ≤ MAX_CONVOS → j ≤ MAX_CONVOS →
        E.uuid (w.uuidCalls + i) = E.uuid (w.uuidCalls + j) → i = j) →
      (createAll E w titles).convos.length = MAX_CONVOS ∧
      ∀ c ∈ (createAll E w titles).convos, c.id ≠ E.uuid w.uuidCalls) := by
  refine ⟨?_, ?_⟩
  · intro w titles t
    rw [createAll_snoc, createConversation_convos, createConversation_activeId,
      createConversation_ret]
    refine ⟨?_, ?_, rfl, rfl, ?_⟩
    · simp [MAX_CONVOS]
    · simp [MAX_CONVOS]
    · simp [MAX_CONVOS]
  · intro w titles hw hlen hinj
    have hids := createAll_ids E w hw titles
    rw [hlen] at hids
    have hcut : (List.range (MAX_CONVOS + 1)).reverse.take MAX_CONVOS =
        (List.range' 1 MAX_CONVOS).reverse := by decide
    rw [← List.map_take, hcut] at hids
    constructor
    · have := congrArg List.length hids
      simpa using this
    · intro c hc heq
      have hmem : c.id ∈ (createAll E w titles).convos.map (fun c => c.id) :=
        List.mem_map.mpr ⟨c, hc, rfl⟩
      rw [hids] at hmem
      obtain ⟨k, hk, hkeq⟩ := List.mem_map.mp hmem
      simp only [List.mem_reverse, List.mem_range'_1] at hk
      have h0 := hinj k 0 (by omega) (by omega) (by simpa using hkeq.trans heq)
      omega

/-- C1 at a concrete run: 51 creates on the empty page of `host`. -/
theorem C1_create_witness :
    emptyWorld.convos = [] ∧ (List.replicate 51 NEW_CHAT).length = MAX_CONVOS + 1 ∧
    (createAll host emptyWorld (List.replicate 51 NEW_CHAT)).convos.length = MAX_CONVOS ∧
    ∀ c ∈ (createAll host emptyWorld (List.replicate 51 NEW_CHAT)).convos,
      c.id ≠ host.uuid emptyWorld.uuidCalls :=
  ⟨rfl, by decide,
    (C1_create_bounded_newest_first_active host).2 emptyWorld (List.replicate 51 NEW_CHAT) rfl
      (by decide) (fun i j _ _ h => by
        have := host_uuid_injective _ _ h
        omega)⟩

/-! ## `deleteConversation` -/

/-- Line 108 leaves a non-empty collection whose first conversation has the
value of the right-hand side as id. -/
theorem firstIdOrCreate_head (E : Env R) (w : World R) :
    ∃ c, (firstIdOrCreate E w).1.convos.head? = some c ∧ c.id = (firstIdOrCreate E w).2 := by
  unfold firstIdOrCreate
  split
  · rename_i c hc
    split
    · refine ⟨newConvo E w NEW_CHAT, ?_, ?_⟩
      · rw [createConversation_convos]
        simp [MAX_CONVOS]
      · rw [createConversation_ret]
        rfl
    · exact ⟨c, hc, rfl⟩
  · refine ⟨newConvo E w NEW_CHAT, ?_, ?_⟩
    · rw [createConversation_convos]
      simp [MAX_CONVOS]
    · rw [createConversation_ret]
      rfl

theorem findIdx?_of_mem_id (cs : List Conversation) (id : JSString)
    (hmem : ∃ c ∈ cs, c.id = id) :
    ∃ i, cs.findIdx? (fun x => x.id == id) = some i ∧ i < cs.length := by
  obtain ⟨c0, hc0, hid⟩ := hmem
  cases hf : cs.findIdx? (fun x => x.id == id) with
  | some i => exact ⟨i, rfl, (List.findIdx?_eq_some_iff_getElem.mp hf).1⟩
  | none =>
    rw [List.findIdx?_eq_none_iff] at hf
    have := hf c0 hc0
    simp [hid] at this

/-- The state `deleteConversation` hands to its tail when the deleted
conversation is found at `i` and is the active one. -/
theorem deleteConversation_active (E : Env R) (w : World R) (id : JSString) (i : Nat)
    (hi : w.convos.findIdx? (fun x => x.id == id) = some i) (hactive : w.activeId = some id) :
    deleteConversation E w id =
      renderMessages (renderConvos E (saveConvos E (reassigned E (spliced w i)))) := by
  unfold deleteConversation
  rw [hi]
  have : (spliced w i).activeId = some id := hactive
  simp only [this, if_true]

/-- C2: deleting the active conversation of a non-empty collection leaves a
non-empty collection whose conversation at position 0 carries `activeId`; when
the deleted conversation was the only one, the collection afterwards is exactly
one freshly created conversation titled "New chat", and it is the active one. -/
theorem C2_delete_active_reassigns (E : Env R) (w : World R) (id : JSString)
    (hactive : w.activeId = some id) (hmem : ∃ c ∈ w.convos, c.id = id) :
    (deleteConversation E w id).convos ≠ [] ∧
    (∃ c, (deleteConversation E w id).convos.head? = some c ∧
      (deleteConversation E w id).activeId = some c.id) ∧
    (w.convos.length = 1 →
      (deleteConversation E w id).convos =
        [{ id := E.uuid w.uuidCalls, title := NEW_CHAT, createdAt := E.now w.nowCalls,
           updatedAt := E.now (w.nowCalls + 1), messages := [] }] ∧
      (deleteConversation E w id).activeId = some (E.uuid w.uuidCalls)) := by
  obtain ⟨i, hi, hlt⟩ := findIdx?_of_mem_id w.convos id hmem
  rw [deleteConversation_active E w id i hi hactive]
  obtain ⟨c, hhead, hcid⟩ := firstIdOrCreate_head E (spliced w i)
  have hconvos : (reassigned E (spliced w i)).convos = (firstIdOrCreate E (spliced w i)).1.convos :=
    rfl
  have hact : (reassigned E (spliced w i)).activeId = some (firstIdOrCreate E (spliced w i)).2 :=
    rfl
  have hne : (reassigned E (spliced w i)).convos ≠ [] := by
    intro h
    rw [hconvos] at h
    rw [h] at hhead
    simp at hhead
  obtain ⟨hkc, hka⟩ := persist_render_keeps E _ hne
  rw [hkc, hka, hconvos, hact]
  refine ⟨by rwa [hconvos] at hne, ⟨c, hhead, by rw [hcid]⟩, ?_⟩
  intro hone
  have herase : (spliced w i).convos = [] := by
    show w.convos.eraseIdx i = []
    rw [List.eraseIdx_eq_nil]
    right
    exact ⟨hone, by omega⟩
  have hfirst : firstIdOrCreate E (spliced w i) = createConversation E (spliced w i) NEW_CHAT := by
    unfold firstIdOrCreate
    rw [herase]
    rfl
  rw [hfirst, createConversation_convos, createConversation_ret, herase]
  exact ⟨rfl, rfl⟩

/-- C2 at a concrete state: two conversations, the active one is deleted. -/
theorem C2_delete_witness :
    (worldOf [blank [97] NEW_CHAT, blank [98] NEW_CHAT] (some [97])).activeId = some [97] ∧
    (deleteConversation host
      (worldOf [blank [97] NEW_CHAT, blank [98] NEW_CHAT] (some [97])) [97]).convos ≠ [] ∧
    ∃ c,
      (deleteConversation host
        (worldOf [blank [97] NEW_CHAT, blank [98] NEW_CHAT] (some [97])) [97]).convos.head?
          = some c ∧
      (deleteConversation host
        (worldOf [blank [97] NEW_CHAT, blank [98] NEW_CHAT] (some [97])) [97]).activeId
          = some c.id :=
  ⟨rfl,
    (C2_delete_active_reassigns host
      (worldOf [blank [97] NEW_CHAT, blank [98] NEW_CHAT] (some [97])) [97] rfl
      ⟨blank [97] NEW_CHAT, by simp [worldOf], rfl⟩).1,
    (C2_delete_active_reassigns host
      (worldOf [blank [97] NEW_CHAT, blank [98] NEW_CHAT] (some [97])) [97] rfl
      ⟨blank [97] NEW_CHAT, by simp [worldOf], rfl⟩).2.1⟩

/-! ## How often an operation persists -/

theorem saveConvos_setItemCalls_of_undeclared (E : Env R) (h : E.outerConvos = none)
    (w : World R) :
    (saveConvos E w).setItemCalls = w.setItemCalls ∧ (saveConvos E w).slot = w.slot := by
  unfold saveConvos
  rw [h]
  exact ⟨rfl, rfl⟩

theorem renderMessages_setItemCalls (w : World R) :
    (renderMessages w).setItemCalls = w.setItemCalls ∧ (renderMessages w).slot = w.slot := by
  unfold renderMessages
  split <;> exact ⟨rfl, rfl⟩

theorem createConversation_setItemCalls_of_undeclared (E : Env R) (h : E.outerConvos = none)
    (w : World R) (title : JSString) :
    (createConversation E w title).1.setItemCalls = w.setItemCalls := by
  rw [createConversation_eq]
  show (renderMessages _).setItemCalls = _
  rw [(renderMessages_setItemCalls _).1]
  show (saveConvos E (created E w title)).setItemCalls = _
  rw [(saveConvos_setItemCalls_of_undeclared E h _).1]
  rfl

/-- Deleting the only conversation, which is active: the state handed to the
tail of `deleteConversation` is the one the nested `createConversation` made. -/
theorem deleteConversation_only (E : Env R) (w : World R) (c : Conversation)
    (hconvos : w.convos = [c]) (hactive : w.activeId = some c.id) :
    deleteConversation E w c.id =
      renderMessages (renderConvos E (saveConvos E
        { (createConversation E (spliced w 0) NEW_CHAT).1 with
          activeId := some (createConversation E (spliced w 0) NEW_CHAT).2 })) := by
  have hi : w.convos.findIdx? (fun x => x.id == c.id) = some 0 := by
    rw [hconvos]
    simp [List.findIdx?_cons]
  rw [deleteConversation_active E w c.id 0 hi hactive]
  have herase : (spliced w 0).convos = [] := by
    show w.convos.eraseIdx 0 = []
    rw [hconvos]
    rfl
  have hfirst : firstIdOrCreate E (spliced w 0) = createConversation E (spliced w 0) NEW_CHAT := by
    unfold firstIdOrCreate
    rw [herase]
    rfl
  unfold reassigned
  rw [hfirst]

/-- Deleting the only conversation runs `saveConvos` twice: once in the nested
`createConversation` (line 83), once in `deleteConversation` (line 109). -/
theorem deleteConversation_only_saveCalls (E : Env R) (w : World R) (c : Conversation)
    (hconvos : w.convos = [c]) (hactive : w.activeId = some c.id) :
    (deleteConversation E w c.id).saveCalls = w.saveCalls + 2 := by
  rw [deleteConversation_only E w c hconvos hactive, renderMessages_saveCalls,
    renderConvos_saveCalls_of_ne_nil, saveConvos_saveCalls]
  · show (createConversation E (spliced w 0) NEW_CHAT).1.saveCalls + 1 = _
    rw [createConversation_saveCalls]
    rfl
  · rw [saveConvos_convos]
    show (createConversation E (spliced w 0) NEW_CHAT).1.convos ≠ []
    rw [createConversation_convos]
    simp [MAX_CONVOS]

/-- Where `convos` is undeclared outside `init`, deleting the only conversation
never reaches `localStorage.setItem`. -/
theorem deleteConversation_only_setItemCalls (E : Env R) (h : E.outerConvos = none)
    (w : World R) (c : Conversation)
    (hconvos : w.convos = [c]) (hactive : w.activeId = some c.id) :
    (deleteConversation E w c.id).setItemCalls = w.setItemCalls := by
  rw [deleteConversation_only E w c hconvos hactive, (renderMessages_setItemCalls _).1,
    renderConvos_of_ne_nil]
  · show (saveConvos E _).setItemCalls = _
    rw [(saveConvos_setItemCalls_of_undeclared E h _).1]
    show (createConversation E (spliced w 0) NEW_CHAT).1.setItemCalls = _
    rw [createConversation_setItemCalls_of_undeclared E h]
    rfl
  · rw [saveConvos_convos]
    show (createConversation E (spliced w 0) NEW_CHAT).1.convos ≠ []
    rw [createConversation_convos]
    simp [MAX_CONVOS]

/-- C8, as stated, fails: deleting the only conversation of a page runs the
persistence step twice, not once (and on this host, where `convos` is
undeclared outside `init`, no call reaches `setItem`). -/
theorem C8_delete_only_persists_twice_counterexample :
    (deleteConversation host (worldOf [blank [97] NEW_CHAT] (some [97])) [97]).saveCalls = 2 ∧
    (deleteConversation host (worldOf [blank [97] NEW_CHAT] (some [97])) [97]).setItemCalls = 0 ∧
    (deleteConversation host (worldOf [blank [97] NEW_CHAT] (some [97])) [97]).saveCalls ≠ 1 ∧
    (deleteConversation host (worldOf [blank [97] NEW_CHAT] (some [97])) [97]).setItemCalls
      ≠ 1 := by
  have h1 := deleteConversation_only_saveCalls host (worldOf [blank [97] NEW_CHAT] (some [97]))
    (blank [97] NEW_CHAT) rfl rfl
  have h2 := deleteConversation_only_setItemCalls host rfl
    (worldOf [blank [97] NEW_CHAT] (some [97])) (blank [97] NEW_CHAT) rfl rfl
  have e1 : (blank [97] NEW_CHAT).id = [97] := rfl
  rw [e1] at h1 h2
  have s0 : (worldOf [blank [97] NEW_CHAT] (some [97])).saveCalls = 0 := rfl
  have s1 : (worldOf [blank [97] NEW_CHAT] (some [97])).setItemCalls = 0 := rfl
  rw [s0] at h1
  rw [s1] at h2
  rw [h1, h2]
  decide

/-- C8, amended: deleting the only conversation, which is active, runs the
persistence step `saveConvos` exactly twice during the operation: once inside
the nested `createConversation` and once in `deleteConversation` itself. -/
theorem C8_delete_only_persists_twice (E : Env R) (w : World R) (c : Conversation)
    (hconvos : w.convos = [c]) (hactive : w.activeId = some c.id) :
    (deleteConversation E w c.id).saveCalls = w.saveCalls + 2 ∧
    (createConversation E (spliced w 0) NEW_CHAT).1.saveCalls = w.saveCalls + 1 :=
  ⟨deleteConversation_only_saveCalls E w c hconvos hactive, by
    rw [createConversation_saveCalls]
    rfl⟩

/-- C8 amended, at a concrete page with one conversation. -/
theorem C8_delete_only_witness :
    (worldOf [blank [97] NEW_CHAT] (some [97])).convos = [blank [97] NEW_CHAT] ∧
    (worldOf [blank [97] NEW_CHAT] (some [97])).activeId = some (blank [97] NEW_CHAT).id ∧
    (deleteConversation host (worldOf [blank [97] NEW_CHAT] (some [97]))
      (blank [97] NEW_CHAT).id).saveCalls =
        (worldOf [blank [97] NEW_CHAT] (some [97])).saveCalls + 2 :=
  ⟨rfl, rfl,
    (C8_delete_only_persists_twice host (worldOf [blank [97] NEW_CHAT] (some [97]))
      (blank [97] NEW_CHAT) rfl rfl).1⟩

/-! ## `setActiveConversation` -/

theorem setActiveConversation_of_ne_nil (E : Env R) (w : World R) (id : JSString)
    (h : w.convos ≠ []) :
    (setActiveConversation E w id).activeId = some id ∧
    (setActiveConversation E w id).convos = w.convos := by
  unfold setActiveConversation
  have h1 : ({ w with activeId := some id } : World R).convos ≠ [] := h
  rw [renderMessages_activeId, renderMessages_convos, renderConvos_activeId_of_ne_nil E _ h1,
    renderConvos_convos_of_ne_nil E _ h1]
  exact ⟨rfl, rfl⟩

theorem setActiveConversation_of_nil (E : Env R) (w : World R) (id : JSString)
    (h : w.convos = []) :
    (setActiveConversation E w id).activeId = some (E.uuid w.uuidCalls) ∧
    (setActiveConversation E w id).convos = [newConvo E w NEW_CHAT] := by
  unfold setActiveConversation
  have h1 : ({ w with activeId := some id } : World R).convos = [] := h
  rw [renderMessages_activeId, renderMessages_convos, renderConvos_of_nil E _ h1,
    createConversation_activeId, createConversation_convos, h1]
  exact ⟨rfl, rfl⟩

/-- C3, as stated, fails: with the single conversation `"a"` active,
`setActiveConversation("z")` moves the active pointer to `"z"`, which is the id
of no conversation in the collection. -/
theorem C3_setActive_absent_id_counterexample :
    (worldOf [blank [97] NEW_CHAT] (some [97])).activeId = some [97] ∧
    (∀ c ∈ (worldOf [blank [97] NEW_CHAT] (some [97])).convos, c.id ≠ [122]) ∧
    (setActiveConversation host (worldOf [blank [97] NEW_CHAT] (some [97])) [122]).activeId
      = some [122] ∧
    (setActiveConversation host (worldOf [blank [97] NEW_CHAT] (some [97])) [122]).activeId
      ≠ (worldOf [blank [97] NEW_CHAT] (some [97])).activeId ∧
    ∀ c ∈ (setActiveConversation host (worldOf [blank [97] NEW_CHAT] (some [97])) [122]).convos,
      some c.id ≠
        (setActiveConversation host (worldOf [blank [97] NEW_CHAT] (some [97]))
          [122]).activeId := by
  obtain ⟨ha, hc⟩ := setActiveConversation_of_ne_nil host
    (worldOf [blank [97] NEW_CHAT] (some [97])) [122] (by simp [worldOf])
  rw [ha, hc]
  refine ⟨rfl, ?_, rfl, ?_, ?_⟩
  · intro c hmem
    simp [worldOf, blank] at hmem
    rw [hmem]
    decide
  · simp [worldOf, emptyWorld]
  · intro c hmem
    simp [worldOf, blank] at hmem
    rw [hmem]
    decide

/-- C3, amended: on a non-empty collection `setActiveConversation(id)` sets
`activeId` to `id` and leaves the collection unchanged, whether or not `id` is
the id of a member (so for a present id the pointer becomes that id, and for
an absent one it afterwards references no member); on an empty collection the
render step creates one conversation titled "New chat" and makes it active. -/
theorem C3_setActive_sets_pointer (E : Env R) (w : World R) (id : JSString) :
    (w.convos ≠ [] →
      (setActiveConversation E w id).activeId = some id ∧
      (setActiveConversation E w id).convos = w.convos) ∧
    ((∃ c ∈ w.convos, c.id = id) →
      (setActiveConversation E w id).activeId = some id ∧
      (setActiveConversation E w id).convos = w.convos) ∧
    (w.convos ≠ [] → (∀ c ∈ w.convos, c.id ≠ id) →
      ∀ c ∈ (setActiveConversation E w id).convos,
        some c.id ≠ (setActiveConversation E w id).activeId) ∧
    (w.convos = [] →
      (setActiveConversation E w id).activeId = some (E.uuid w.uuidCalls) ∧
      (setActiveConversation E w id).convos = [newConvo E w NEW_CHAT]) := by
  refine ⟨setActiveConversation_of_ne_nil E w id, ?_, ?_, setActiveConversation_of_nil E w id⟩
  · rintro ⟨c, hc, _⟩
    exact setActiveConversation_of_ne_nil E w id (List.ne_nil_of_mem hc)
  · intro hne habsent c hc
    obtain ⟨ha, hcs⟩ := setActiveConversation_of_ne_nil E w id hne
    rw [ha]
    rw [hcs] at hc
    intro heq
    exact habsent c hc (Option.some.inj heq)

/-- C3 amended, at a concrete page: selecting the second of two conversations. -/
theorem C3_setActive_witness :
    (worldOf [blank [97] NEW_CHAT, blank [98] NEW_CHAT] (some [97])).convos ≠ [] ∧
    (setActiveConversation host
      (worldOf [blank [97] NEW_CHAT, blank [98] NEW_CHAT] (some [97])) [98]).activeId
        = some [98] ∧
    (setActiveConversation host
      (worldOf [blank [97] NEW_CHAT, blank [98] NEW_CHAT] (some [97])) [98]).convos =
        (worldOf [blank [97] NEW_CHAT, blank [98] NEW_CHAT] (some [97])).convos :=
  ⟨by simp [worldOf],
    (C3_setActive_sets_pointer host
      (worldOf [blank [97] NEW_CHAT, blank [98] NEW_CHAT] (some [97])) [98]).1
      (by simp [worldOf])⟩

/-! ## `appendMessage` -/

/-- The methods `find` and `findIndex` and assignment through the found reference agree. -/
theorem find?_set_of_find? {α : Type} (p : α → Bool) (l : List α) (c : α)
    (h : l.find? p = some c) :
    ∃ k, l.findIdx? p = some k ∧ l[k]? = some c ∧
      ∀ c2, p c2 = true → (l.set k c2).find? p = some c2 := by
  induction l with
  | nil => simp at h
  | cons x xs ih =>
    by_cases hx : p x = true
    · rw [List.find?_cons_of_pos _ hx] at h
      refine ⟨0, ?_, ?_, ?_⟩
      · simp [List.findIdx?_cons, hx]
      · simpa using Option.some.inj h
      · intro c2 hc2
        simp [List.set, hc2]
    · rw [List.find?_cons_of_neg _ hx] at h
      obtain ⟨k, hk, hget, hset⟩ := ih h
      refine ⟨k + 1, ?_, ?_, ?_⟩
      · simp [List.findIdx?_cons, hx, List.findIdx?_succ, hk]
      · simpa using hget
      · intro c2 hc2
        simp only [List.set_cons_succ]
        rw [List.find?_cons_of_neg _ hx]
        exact hset c2 hc2

theorem appended_id (E : Env R) (w : World R) (c : Conversation) (role text : JSString) :
    (appended E w c role text).id = c.id := by
  unfold appended
  dsimp only
  split <;> rfl

/-- The title `appendMessage("user", t)` leaves on a conversation titled
"New chat": derived only when the conversation held no message, and "New chat"
again when the derived title is empty. -/
theorem appended_title_user (E : Env R) (w : World R) (c : Conversation) (t : JSString)
    (htitle : c.title = NEW_CHAT) :
    (appended E w c USER t).title =
      if c.messages = [] then orElse (deriveTitle t) NEW_CHAT else NEW_CHAT := by
  unfold appended
  dsimp only
  by_cases hm : c.messages = []
  · simp [hm, htitle]
  · have : ∀ m : Message, ¬ (c.messages ++ [m]).length = 1 := by
      intro m
      cases hcm : c.messages with
      | nil => exact absurd hcm hm
      | cons m ms => simp
    simp [hm, this, htitle]

/-- After `appendMessage` the active conversation is the one it was, with lines
118-130 applied. -/
theorem findActive_appendMessage (E : Env R) (w : World R) (c : Conversation)
    (role text : JSString) (hfind : findActive w = some c) :
    findActive (appendMessage E w role text) = some (appended E w c role text) := by
  unfold findActive at hfind
  cases ha : w.activeId with
  | none => simp [ha] at hfind
  | some a =>
    simp only [ha] at hfind
    obtain ⟨k, hk, hget, hset⟩ := find?_set_of_find? _ _ _ hfind
    have hpc : (c.id == a) = true := by
      have h0 := List.find?_some hfind
      exact h0
    have htarget : appendTarget w = some k := by
      unfold appendTarget
      simp only [ha, hk]
    unfold appendMessage
    rw [htarget]
    simp only [hget]
    unfold findActive
    rw [saveConvos_activeId, saveConvos_convos]
    simp only [ha]
    apply hset
    show ((appended E w c role text).id == a) = true
    rw [appended_id]
    exact hpc

/-- Where the conversation holds only an assistant reply, the first user
message does not set the title: the guard of line 127 counts every message,
while the comment of line 126 speaks of the first user message. -/
theorem appendMessage_after_reply_keeps_title :
    findActive (worldOf [repliedConvo] (some [97])) = some repliedConvo ∧
    repliedConvo.title = NEW_CHAT ∧
    (findActive (appendMessage host (worldOf [repliedConvo] (some [97])) USER (js "hi"))).map
      (fun c => c.title) = some NEW_CHAT := by
  decide

/-- C4, as stated, fails: on a fresh page the user sends `"New chat"`, which
becomes the title, and the reply is stored; the active conversation is then
titled "New chat" and holds messages.  A second user message `"hi"` leaves the
title "New chat", not "hi". -/
theorem C4_second_user_message_counterexample :
    (findActive (appendMessage host (appendMessage host
        (worldOf [blank [97] NEW_CHAT] (some [97])) USER (js "New chat"))
        (js "assistant") (js "Echoing: New chat"))).map (fun c => c.title) = some NEW_CHAT ∧
    (findActive (appendMessage host (appendMessage host
        (worldOf [blank [97] NEW_CHAT] (some [97])) USER (js "New chat"))
        (js "assistant") (js "Echoing: New chat"))).map (fun c => c.messages.map fun m => m.role)
      = some [USER, js "assistant"] ∧
    deriveTitle (js "hi") = js "hi" ∧
    (findActive (appendMessage host (appendMessage host (appendMessage host
        (worldOf [blank [97] NEW_CHAT] (some [97])) USER (js "New chat"))
        (js "assistant") (js "Echoing: New chat")) USER (js "hi"))).map (fun c => c.title)
      = some NEW_CHAT ∧
    (findActive (appendMessage host (appendMessage host (appendMessage host
        (worldOf [blank [97] NEW_CHAT] (some [97])) USER (js "New chat"))
        (js "assistant") (js "Echoing: New chat")) USER (js "hi"))).map (fun c => c.title)
      ≠ some (deriveTitle (js "hi")) := by
  decide

/-- C4, amended: when the active conversation is titled "New chat" and holds no
message, `appendMessage("user", t)` sets its title to the first 40 code units
of `t` trimmed and with every run of white space replaced by one space if that
derived title is not empty, and leaves the title "New chat" if it is empty;
when the conversation already holds a user message, the title stays
"New chat". -/
theorem C4_append_user_derives_title (E : Env R) (w : World R) (c : Conversation)
    (t : JSString) (hfind : findActive w = some c) (htitle : c.title = NEW_CHAT) :
    ∃ c1, findActive (appendMessage E w USER t) = some c1 ∧ c1.id = c.id ∧
      (c.messages = [] → deriveTitle t ≠ [] → c1.title = deriveTitle t) ∧
      (c.messages = [] → deriveTitle t = [] → c1.title = NEW_CHAT) ∧
      ((∃ m ∈ c.messages, m.role = USER) → c1.title = NEW_CHAT) := by
  refine ⟨appended E w c USER t, findActive_appendMessage E w c USER t hfind,
    appended_id E w c USER t, ?_, ?_, ?_⟩
  · intro hm hd
    rw [appended_title_user E w c t htitle, if_pos hm]
    unfold orElse
    rw [if_neg hd]
  · intro hm hd
    rw [appended_title_user E w c t htitle, if_pos hm]
    unfold orElse
    rw [if_pos hd]
  · rintro ⟨m, hm, _⟩
    rw [appended_title_user E w c t htitle, if_neg (List.ne_nil_of_mem hm)]

/-- C4 amended, at a concrete page: the first user message `"  hello   world "`
on a fresh conversation gives the title `"hello world"`. -/
theorem C4_append_user_witness :
    findActive (worldOf [blank [97] NEW_CHAT] (some [97])) = some (blank [97] NEW_CHAT) ∧
    (blank [97] NEW_CHAT).title = NEW_CHAT ∧
    deriveTitle (js "  hello   world ") = js "hello world" ∧
    ∃ c1, findActive (appendMessage host (worldOf [blank [97] NEW_CHAT] (some [97])) USER
        (js "  hello   world ")) = some c1 ∧ c1.title = js "hello world" := by
  obtain ⟨c1, h1, _, h2, _, _⟩ :=
    C4_append_user_derives_title host (worldOf [blank [97] NEW_CHAT] (some [97]))
      (blank [97] NEW_CHAT) (js "  hello   world ") (by decide) rfl
  have hd : deriveTitle (js "  hello   world ") = js "hello world" := by decide
  refine ⟨by decide, rfl, hd, c1, h1, ?_⟩
  rw [h2 rfl (by rw [hd]; decide), hd]

/-! ## Reply streaming -/

theorem ticksClaimed_eq (n : Nat) :
    ticksClaimed n = max 1 ((n + stepOf n - 1) / stepOf n) := rfl

theorem stepOf_ge_two (n : Nat) : 2 ≤ stepOf n := by
  unfold stepOf
  exact le_max_left 2 _

theorem ticksClaimed_pos (n : Nat) : 1 ≤ ticksClaimed n := by
  unfold ticksClaimed
  exact le_max_left 1 _

/-- Before the claimed last tick the cursor has not reached the end. -/
theorem cursor_lt_of_lt_ticksClaimed (n j : Nat) (hj : j + 1 < ticksClaimed n) :
    (j + 1) * stepOf n < n := by
  have hs := stepOf_ge_two n
  rw [ticksClaimed_eq] at hj
  have hq : j + 1 < (n + stepOf n - 1) / stepOf n := by
    rcases max_cases 1 ((n + stepOf n - 1) / stepOf n) with h | h <;> omega
  have h2 : (j + 1 + 1) * stepOf n ≤ n + stepOf n - 1 :=
    (Nat.le_div_iff_mul_le (by omega)).mp hq
  have h3 : (j + 1 + 1) * stepOf n = (j + 1) * stepOf n + stepOf n := by ring
  omega

/-- At the claimed last tick the cursor has reached the end. -/
theorem len_le_ticksClaimed_mul (n : Nat) : n ≤ ticksClaimed n * stepOf n := by
  have hs := stepOf_ge_two n
  have hq : (n + stepOf n - 1) / stepOf n ≤ ticksClaimed n := le_max_right 1 _
  have h1 : n + stepOf n - 1 < ((n + stepOf n - 1) / stepOf n + 1) * stepOf n := by
    have := Nat.lt_succ_self ((n + stepOf n - 1) / stepOf n)
    exact (Nat.div_lt_iff_lt_mul (by omega)).mp this
  have h2 : ((n + stepOf n - 1) / stepOf n + 1) * stepOf n =
      (n + stepOf n - 1) / stepOf n * stepOf n + stepOf n := by ring
  have h3 : (n + stepOf n - 1) / stepOf n * stepOf n ≤ ticksClaimed n * stepOf n :=
    Nat.mul_le_mul_right _ hq
  omega

theorem streamStart_step (t : JSString) : (streamStart t).step = stepOf t.length := rfl

/-- The closure after `k` frames, for every `k` up to the claimed number of
ticks: `tick` has run `k` times, the cursor is at `k * step`, and `tick` is
registered again exactly when `k` is below that number. -/
theorem afterFrames_eq (t : JSString) (k : Nat) (hk : k ≤ ticksClaimed t.length) :
    afterFrames k (streamStart t) =
      { fullText := t
        step := stepOf t.length
        i := k * stepOf t.length
        textContent := if k = 0 then [] else t.take (k * stepOf t.length)
        pending := decide (k < ticksClaimed t.length)
        ticks := k } := by
  induction k with
  | zero =>
    have := ticksClaimed_pos t.length
    simp [afterFrames, streamStart, stepOf]
    omega
  | succ k ih =>
    have hlt : k < ticksClaimed t.length := by omega
    rw [afterFrames, ih (by omega)]
    have hmul : (k + 1) * stepOf t.length = k * stepOf t.length + stepOf t.length := by ring
    have hpend : decide (k * stepOf t.length + stepOf t.length < t.length) =
        decide (k + 1 < ticksClaimed t.length) := by
      by_cases hlast : k + 1 < ticksClaimed t.length
      · have := cursor_lt_of_lt_ticksClaimed t.length k hlast
        rw [hmul] at this
        simp [hlast, this]
      · have heq : k + 1 = ticksClaimed t.length := by omega
        have := len_le_ticksClaimed_mul t.length
        rw [← heq, hmul] at this
        simp [hlast]
        omega
    simp only [nextFrame, tick, hlt, decide_True, if_true, hpend, hmul]
    simp

/-- Once `tick` is not registered, frames change nothing. -/
theorem afterFrames_stable (s : Typing) (k : Nat) (h : (afterFrames k s).pending = false)
    (m : Nat) : afterFrames (k + m) s = afterFrames k s := by
  induction m with
  | zero => rfl
  | succ m ih =>
    show nextFrame (afterFrames (k + m) s) = _
    rw [ih]
    unfold nextFrame
    simp [h]

theorem take_min_length {α : Type} (t : List α) (m : Nat) :
    t.take (min m t.length) = t.take m := by
  rcases Nat.le_total m t.length with h | h
  · rw [Nat.min_eq_left h]
  · rw [Nat.min_eq_right h, List.take_length, List.take_of_length_le h]

theorem afterFrames_of_ge (t : JSString) (m : Nat) (hm : ticksClaimed t.length ≤ m) :
    afterFrames m (streamStart t) = afterFrames (ticksClaimed t.length) (streamStart t) := by
  have hstop : (afterFrames (ticksClaimed t.length) (streamStart t)).pending = false := by
    rw [afterFrames_eq t _ (le_refl _)]
    simp
  have := afterFrames_stable (streamStart t) (ticksClaimed t.length) hstop
    (m - ticksClaimed t.length)
  rwa [Nat.add_sub_cancel' hm] at this

theorem ticksClaimed_le (n : Nat) : ticksClaimed n ≤ 120 := by
  have hs := stepOf_ge_two n
  have hstep : stepOf n = 2 ∨ stepOf n = n / 80 := by
    unfold stepOf TYPING_STEP_TARGET
    rcases max_cases 2 (n / 80) with h | h <;> omega
  have hq : (n + stepOf n - 1) / stepOf n < 121 := by
    rw [Nat.div_lt_iff_lt_mul (by omega)]
    have hlow : n / 80 ≤ stepOf n := by
      unfold stepOf TYPING_STEP_TARGET
      exact le_max_right 2 _
    omega
  rw [ticksClaimed_eq]
  rcases max_cases 1 ((n + stepOf n - 1) / stepOf n) with h | h <;> omega

theorem ticksClaimed_ge (n : Nat) (hn : 160 ≤ n) : 80 ≤ ticksClaimed n := by
  have hs := stepOf_ge_two n
  have hstep : stepOf n = n / 80 := by
    unfold stepOf TYPING_STEP_TARGET
    rcases max_cases 2 (n / 80) with h | h <;> omega
  have hq : 80 ≤ (n + stepOf n - 1) / stepOf n := by
    rw [Nat.le_div_iff_mul_le (by omega)]
    omega
  rw [ticksClaimed_eq]
  rcases max_cases 1 ((n + stepOf n - 1) / stepOf n) with h | h <;> omega

/-- C6: for every reply `fullText`, the stream stops after finitely many ticks
(after `ticksClaimed` frames `tick` is no longer registered and further frames
change nothing); with `step = max(2, floor(length / 80))` the `k`-th frame is
the `k`-th tick and shows the prefix of length `min(k * step, length)`; the
shown texts strictly grow from one tick to the next; and the text shown by the
last tick is `fullText`. -/
theorem C6_stream_shows_growing_prefixes (t : JSString) :
    (afterFrames (ticksClaimed t.length) (streamStart t)).pending = false ∧
    (∀ m, afterFrames (ticksClaimed t.length + m) (streamStart t) =
      afterFrames (ticksClaimed t.length) (streamStart t)) ∧
    (streamStart t).step = max 2 (t.length / 80) ∧
    (∀ k, 1 ≤ k → k ≤ ticksClaimed t.length →
      (afterFrames (k - 1) (streamStart t)).pending = true ∧
      (afterFrames k (streamStart t)).ticks = k ∧
      (afterFrames k (streamStart t)).textContent =
        t.take (min (k * (streamStart t).step) t.length)) ∧
    (∀ k, 1 ≤ k → k < ticksClaimed t.length →
      (afterFrames k (streamStart t)).textContent.length <
        (afterFrames (k + 1) (streamStart t)).textContent.length) ∧
    (afterFrames (ticksClaimed t.length) (streamStart t)).textContent = t := by
  have hpos := ticksClaimed_pos t.length
  have hend := len_le_ticksClaimed_mul t.length
  refine ⟨?_, ?_, rfl, ?_, ?_, ?_⟩
  · rw [afterFrames_eq t _ (le_refl _)]
    simp
  · intro m
    exact afterFrames_of_ge t _ (Nat.le_add_right _ _)
  · intro k hk1 hkK
    rw [afterFrames_eq t (k - 1) (by omega), afterFrames_eq t k hkK, streamStart_step,
      take_min_length]
    refine ⟨?_, rfl, ?_⟩
    · simp
      omega
    · simp
      omega
  · intro k hk1 hkK
    rw [afterFrames_eq t k (by omega), afterFrames_eq t (k + 1) (by omega)]
    have hcur := cursor_lt_of_lt_ticksClaimed t.length (k - 1) (by omega)
    have hk : k - 1 + 1 = k := by omega
    rw [hk] at hcur
    have hmul : (k + 1) * stepOf t.length = k * stepOf t.length + stepOf t.length := by ring
    have hs := stepOf_ge_two t.length
    have hk0 : ¬ k = 0 := by omega
    simp only [hk0, if_false, Nat.succ_ne_zero, List.length_take]
    rw [Nat.min_eq_left (le_of_lt hcur), hmul]
    apply lt_min
    · omega
    · exact hcur
  · rw [afterFrames_eq t _ (le_refl _)]
    have h0 : ¬ ticksClaimed t.length = 0 := by omega
    simp only [h0, if_false]
    exact List.take_of_length_le hend

/-- C6 at the reply `"hello world"`: the third tick shows `"hello "`. -/
theorem C6_stream_witness :
    1 ≤ 3 ∧ 3 ≤ ticksClaimed (js "hello world").length ∧
    (afterFrames 3 (streamStart (js "hello world"))).ticks = 3 ∧
    (afterFrames 3 (streamStart (js "hello world"))).textContent =
      (js "hello world").take
        (min (3 * (streamStart (js "hello world")).step) (js "hello world").length) :=
  ⟨by decide, by decide,
    ((C6_stream_shows_growing_prefixes (js "hello world")).2.2.2.1 3 (by decide) (by decide)).2⟩

/-- C10: a reply of length `n` completes in exactly
`max(1, ceil(n / max(2, floor(n / 80))))` ticks: before that many frames `tick`
is still registered, from then on it is not and has run exactly that often;
the number is at most 120 (1.5 times the 80-tick target) for every `n` and at
least 80 for every `n ≥ 160`. -/
theorem C10_tick_count_bounds (t : JSString) :
    ticksClaimed t.length =
      max 1 ((t.length + max 2 (t.length / 80) - 1) / max 2 (t.length / 80)) ∧
    (∀ k, k < ticksClaimed t.length → (afterFrames k (streamStart t)).pending = true) ∧
    (∀ m, ticksClaimed t.length ≤ m →
      (afterFrames m (streamStart t)).pending = false ∧
      (afterFrames m (streamStart t)).ticks = ticksClaimed t.length) ∧
    ticksClaimed t.length ≤ 120 ∧
    2 * ticksClaimed t.length ≤ 3 * TYPING_STEP_TARGET ∧
    (160 ≤ t.length → 80 ≤ ticksClaimed t.length) := by
  refine ⟨rfl, ?_, ?_, ticksClaimed_le _, ?_, ticksClaimed_ge _⟩
  · intro k hk
    rw [afterFrames_eq t k (le_of_lt hk)]
    simp [hk]
  · intro m hm
    rw [afterFrames_of_ge t m hm, afterFrames_eq t _ (le_refl _)]
    simp
  · have := ticksClaimed_le t.length
    unfold TYPING_STEP_TARGET
    omega

/-- C10 at a reply of 200 characters: 100 ticks. -/
theorem C10_tick_count_witness :
    160 ≤ (List.replicate 200 97).length ∧
    80 ≤ ticksClaimed (List.replicate 200 97).length ∧
    ticksClaimed (List.replicate 200 97).length ≤ 120 :=
  ⟨by rw [List.length_replicate]; decide,
    (C10_tick_count_bounds (List.replicate 200 97)).2.2.2.2.2
      (by rw [List.length_replicate]; decide),
    (C10_tick_count_bounds (List.replicate 200 97)).2.2.2.1⟩

/-! ## Pending frame callbacks -/

theorem findActive_eq (w : World R) (a : JSString) (h : w.activeId = some a) :
    findActive w = w.convos.find? (fun x => x.id == a) := by
  unfold findActive
  rw [h]

theorem renderMessages_frames_of_active (w : World R) (c : Conversation)
    (h : findActive w = some c) :
    (renderMessages w).frames =
      w.frames ++
        [Frame.messages (c.messages.map fun m => MsgNode.static (m.role == USER) m.text)] := by
  unfold renderMessages
  rw [h]
  rfl

theorem renderMessages_frames_kept (w : World R) : w.frames <+: (renderMessages w).frames := by
  unfold renderMessages
  split
  · exact List.prefix_refl _
  · exact List.prefix_append _ _

theorem renderConvos_frames_of_ne_nil (E : Env R) (w : World R) (h : w.convos ≠ []) :
    (renderConvos E w).frames = w.frames ++ [Frame.convoList (convoFragment w)] := by
  rw [renderConvos_of_ne_nil E w h]
  rfl

/-- One `createConversation` call registers one callback for the conversation
list and one for the message list. -/
theorem createConversation_frames (E : Env R) (w : World R) (title : JSString) :
    (createConversation E w title).1.frames =
      w.frames ++ [Frame.convoList (convoFragment (saveConvos E (created E w title))),
        Frame.messages []] := by
  rw [createConversation_eq]
  have hact : (requestAnimationFrame
      (Frame.convoList (convoFragment (saveConvos E (created E w title))))
      (saveConvos E (created E w title))).activeId = some (E.uuid w.uuidCalls) := by
    show (saveConvos E (created E w title)).activeId = _
    rw [saveConvos_activeId]
    rfl
  have hfind : findActive (requestAnimationFrame
      (Frame.convoList (convoFragment (saveConvos E (created E w title))))
      (saveConvos E (created E w title))) = some (newConvo E w title) := by
    rw [findActive_eq _ _ hact]
    show List.find? _ (saveConvos E (created E w title)).convos = _
    rw [saveConvos_convos]
    simp [created, MAX_CONVOS, newConvo]
  show (renderMessages _).frames = _
  rw [renderMessages_frames_of_active _ _ hfind]
  show (saveConvos E (created E w title)).frames ++ _ ++ _ = _
  rw [saveConvos_frames]
  simp [created, newConvo]

theorem createConversation_frames_kept (E : Env R) (w : World R) (title : JSString) :
    w.frames <+: (createConversation E w title).1.frames := by
  rw [createConversation_frames]
  exact List.prefix_append _ _

theorem renderConvos_frames_kept (E : Env R) (w : World R) :
    w.frames <+: (renderConvos E w).frames := by
  by_cases h : w.convos = []
  · rw [renderConvos_of_nil E w h]
    exact createConversation_frames_kept E w NEW_CHAT
  · rw [renderConvos_frames_of_ne_nil E w h]
    exact List.prefix_append _ _

theorem persist_render_frames_kept (E : Env R) (w : World R) :
    w.frames <+: (renderMessages (renderConvos E (saveConvos E w))).frames := by
  have h1 : w.frames <+: (renderConvos E (saveConvos E w)).frames := by
    have := renderConvos_frames_kept E (saveConvos E w)
    rwa [saveConvos_frames] at this
  exact h1.trans (renderMessages_frames_kept _)

theorem setActiveConversation_frames_kept (E : Env R) (w : World R) (id : JSString) :
    w.frames <+: (setActiveConversation E w id).frames := by
  unfold setActiveConversation
  have h1 : w.frames <+: (renderConvos E { w with activeId := some id }).frames :=
    renderConvos_frames_kept E { w with activeId := some id }
  exact h1.trans (renderMessages_frames_kept _)

theorem renameConversation_frames_kept (E : Env R) (w : World R) (id title : JSString) :
    w.frames <+: (renameConversation E w id title).frames := by
  unfold renameConversation
  split
  · exact List.prefix_refl _
  · split
    · exact List.prefix_refl _
    · have h1 := renderConvos_frames_kept E
      refine List.IsPrefix.trans ?_ (h1 _)
      rw [saveConvos_frames]

theorem firstIdOrCreate_frames_kept (E : Env R) (w : World R) :
    w.frames <+: (firstIdOrCreate E w).1.frames := by
  unfold firstIdOrCreate
  split
  · split
    · exact createConversation_frames_kept E w NEW_CHAT
    · exact List.prefix_refl _
  · exact createConversation_frames_kept E w NEW_CHAT

theorem deleteConversation_frames_kept (E : Env R) (w : World R) (id : JSString) :
    w.frames <+: (deleteConversation E w id).frames := by
  unfold deleteConversation
  split
  · exact List.prefix_refl _
  · rename_i i _
    dsimp only
    split
    · have h1 : w.frames <+: (reassigned E (spliced w i)).frames :=
        firstIdOrCreate_frames_kept E (spliced w i)
      exact h1.trans (persist_render_frames_kept E _)
    · have h1 : w.frames <+: (spliced w i).frames := List.prefix_refl _
      exact h1.trans (persist_render_frames_kept E _)

theorem appendMessage_frames (E : Env R) (w : World R) (role text : JSString) :
    (appendMessage E w role text).frames = w.frames := by
  unfold appendMessage
  split
  · rfl
  · split
    · rfl
    · rw [saveConvos_frames]

theorem fire_tick_pending (w : World R) (h : Nat) (s : Typing) (hs : w.streams[h]? = some s)
    (hp : (tick s).pending = true) :
    (fire (Frame.tick h) w).frames = w.frames ++ [Frame.tick h] ∧
    (fire (Frame.tick h) w).streams[h]? = some (tick s) := by
  have hlt : h < w.streams.length := by
    rcases Nat.lt_or_ge h w.streams.length with hl | hl
    · exact hl
    · rw [List.getElem?_eq_none hl] at hs
      exact absurd hs (by simp)
  unfold fire
  simp only [hs, hp, if_true]
  refine ⟨rfl, ?_⟩
  show (w.streams.set h (tick s))[h]? = some (tick s)
  exact List.getElem?_set_self hlt

/-- A display frame of a page whose only registered callback is the tick of
stream `h` is one `nextFrame` step of that stream. -/
theorem displayFrame_single_tick (w : World R) (h : Nat) (s : Typing)
    (hs : w.streams[h]? = some s) (hp : s.pending = true) (hf : w.frames = [Frame.tick h]) :
    (displayFrame w).streams[h]? = some (nextFrame s) ∧
    (displayFrame w).frames = if (nextFrame s).pending then [Frame.tick h] else [] := by
  have hlt : h < w.streams.length := by
    rcases Nat.lt_or_ge h w.streams.length with hl | hl
    · exact hl
    · rw [List.getElem?_eq_none hl] at hs
      exact absurd hs (by simp)
  have hnext : nextFrame s = tick s := by
    unfold nextFrame
    rw [if_pos hp]
  unfold displayFrame
  rw [hf, hnext]
  simp only [List.foldl_cons, List.foldl_nil, fire, hs]
  by_cases hq : (tick s).pending = true
  · simp only [hq, if_true]
    refine ⟨?_, rfl⟩
    show (w.streams.set h (tick s))[h]? = some (tick s)
    exact List.getElem?_set_self hlt
  · simp only [hq]
    refine ⟨?_, rfl⟩
    show (w.streams.set h (tick s))[h]? = some (tick s)
    exact List.getElem?_set_self hlt

theorem setActiveConversation_eq_of_ne_nil (E : Env R) (w : World R) (id : JSString)
    (h : w.convos ≠ []) :
    setActiveConversation E w id =
      renderMessages
        (requestAnimationFrame (Frame.convoList (convoFragment { w with activeId := some id }))
          { w with activeId := some id }) := by
  unfold setActiveConversation
  rw [renderConvos_of_ne_nil E { w with activeId := some id } h]

/-! ## Reply streams under the events of the page -/

theorem Undisturbed.refl (h : Nat) (w : World R) : Undisturbed h w w := ⟨rfl, rfl⟩

theorem Undisturbed.trans {h : Nat} {w w1 w2 : World R} (h1 : Undisturbed h w w1)
    (h2 : Undisturbed h w1 w2) : Undisturbed h w w2 :=
  ⟨h2.1.trans h1.1, h2.2.trans h1.2⟩

theorem Undisturbed.streaming {h : Nat} {w w1 : World R} {s : Typing}
    (hu : Undisturbed h w w1) (hs : Streaming h s w) : Streaming h s w1 := by
  unfold Streaming
  rw [hu.1, hu.2]
  exact hs

theorem saveConvos_undisturbed (E : Env R) (h : Nat) (w : World R) :
    Undisturbed h w (saveConvos E w) := by
  unfold Undisturbed saveConvos
  dsimp only
  split
  · exact ⟨rfl, rfl⟩
  · split
    · exact ⟨rfl, rfl⟩
    · split <;> exact ⟨rfl, rfl⟩

theorem renderMessages_undisturbed (h : Nat) (w : World R) :
    Undisturbed h w (renderMessages w) := by
  unfold Undisturbed renderMessages
  split
  · exact ⟨rfl, rfl⟩
  · refine ⟨rfl, ?_⟩
    simp [requestAnimationFrame, List.countP_append, Frame.isTickOf]

theorem paintConvos_undisturbed (h : Nat) (w : World R) (frag : List ListNode) :
    Undisturbed h w (requestAnimationFrame (Frame.convoList frag) w) := by
  refine ⟨rfl, ?_⟩
  simp [requestAnimationFrame, List.countP_append, Frame.isTickOf]

theorem createConversation_undisturbed (E : Env R) (h : Nat) (w : World R) (title : JSString) :
    Undisturbed h w (createConversation E w title).1 := by
  rw [createConversation_eq]
  have h0 : Undisturbed h w (created E w title) := ⟨rfl, rfl⟩
  exact ((h0.trans (saveConvos_undisturbed E h _)).trans
    (paintConvos_undisturbed h _ _)).trans (renderMessages_undisturbed h _)

theorem renderConvos_undisturbed (E : Env R) (h : Nat) (w : World R) :
    Undisturbed h w (renderConvos E w) := by
  by_cases hc : w.convos = []
  · rw [renderConvos_of_nil E w hc]
    exact createConversation_undisturbed E h w NEW_CHAT
  · rw [renderConvos_of_ne_nil E w hc]
    exact paintConvos_undisturbed h w _

theorem persist_render_undisturbed (E : Env R) (h : Nat) (w : World R) :
    Undisturbed h w (renderMessages (renderConvos E (saveConvos E w))) :=
  ((saveConvos_undisturbed E h w).trans (renderConvos_undisturbed E h _)).trans
    (renderMessages_undisturbed h _)

theorem setActiveConversation_undisturbed (E : Env R) (h : Nat) (w : World R) (id : JSString) :
    Undisturbed h w (setActiveConversation E w id) := by
  unfold setActiveConversation
  have h0 : Undisturbed h w ({ w with activeId := some id } : World R) := ⟨rfl, rfl⟩
  exact (h0.trans (renderConvos_undisturbed E h _)).trans (renderMessages_undisturbed h _)

theorem renameConversation_undisturbed (E : Env R) (h : Nat) (w : World R)
    (id title : JSString) : Undisturbed h w (renameConversation E w id title) := by
  unfold renameConversation
  split
  · exact ⟨rfl, rfl⟩
  · split
    · exact ⟨rfl, rfl⟩
    · refine Undisturbed.trans ?_ (renderConvos_undisturbed E h _)
      refine Undisturbed.trans ?_ (saveConvos_undisturbed E h _)
      exact ⟨rfl, rfl⟩

theorem reassigned_undisturbed (E : Env R) (h : Nat) (w : World R) :
    Undisturbed h w (reassigned E w) := by
  have h1 : Undisturbed h w (firstIdOrCreate E w).1 := by
    unfold firstIdOrCreate
    split
    · split
      · exact createConversation_undisturbed E h w NEW_CHAT
      · exact ⟨rfl, rfl⟩
    · exact createConversation_undisturbed E h w NEW_CHAT
  exact ⟨h1.1, h1.2⟩

theorem deleteConversation_undisturbed (E : Env R) (h : Nat) (w : World R) (id : JSString) :
    Undisturbed h w (deleteConversation E w id) := by
  unfold deleteConversation
  split
  · exact ⟨rfl, rfl⟩
  · rename_i i _
    dsimp only
    have h0 : Undisturbed h w (spliced w i) := ⟨rfl, rfl⟩
    split
    · exact (h0.trans (reassigned_undisturbed E h _)).trans (persist_render_undisturbed E h _)
    · exact h0.trans (persist_render_undisturbed E h _)

theorem appendMessage_undisturbed (E : Env R) (h : Nat) (w : World R) (role text : JSString) :
    Undisturbed h w (appendMessage E w role text) := by
  unfold appendMessage
  split
  · exact ⟨rfl, rfl⟩
  · split
    · exact ⟨rfl, rfl⟩
    · refine Undisturbed.trans ?_ (saveConvos_undisturbed E h _)
      exact ⟨rfl, rfl⟩

theorem addMessage_undisturbed (h : Nat) (w : World R) (text : JSString) (me : Bool) :
    Undisturbed h w (addMessage w text me) := by
  refine ⟨rfl, ?_⟩
  simp [addMessage, requestAnimationFrame, List.countP_append, Frame.isTickOf]

theorem lt_length_of_getElem? {α : Type} (l : List α) (h : Nat) (a : α)
    (hs : l[h]? = some a) : h < l.length := by
  rcases Nat.lt_or_ge h l.length with hl | hl
  · exact hl
  · rw [List.getElem?_eq_none hl] at hs
    exact absurd hs (by simp)

/-- Another `streamBotReply` call takes a new handle and leaves stream `h` and
its registered tick alone. -/
theorem streamBotReply_streaming (h : Nat) (s : Typing) (w : World R) (t : JSString)
    (hs : Streaming h s w) : Streaming h s (streamBotReply w t).1 := by
  have hlt := lt_length_of_getElem? _ _ _ hs.1
  have hne : ¬ w.streams.length = h := by omega
  constructor
  · show (w.streams ++ [streamStart t])[h]? = some s
    rw [List.getElem?_append_left hlt]
    exact hs.1
  · show (w.frames ++ [Frame.tick w.streams.length]).countP (Frame.isTickOf h) = _
    rw [List.countP_append, hs.2]
    simp [Frame.isTickOf, hne]

/-- Running a callback that is not the tick of stream `h`. -/
theorem fire_other (h : Nat) (f : Frame) (hf : f.isTickOf h = false) (w : World R) :
    (fire f w).streams[h]? = w.streams[h]? ∧
    (fire f w).streams.length = w.streams.length ∧
    (fire f w).frames.countP (Frame.isTickOf h) = w.frames.countP (Frame.isTickOf h) := by
  cases f with
  | convoList frag => exact ⟨rfl, rfl, rfl⟩
  | messages frag => exact ⟨rfl, rfl, rfl⟩
  | addMessage div => exact ⟨rfl, rfl, rfl⟩
  | tick k =>
    have hk : ¬ k = h := by simpa [Frame.isTickOf] using hf
    unfold fire
    dsimp only
    split
    · exact ⟨rfl, rfl, rfl⟩
    · split
      · refine ⟨?_, ?_, ?_⟩
        · show (w.streams.set k _)[h]? = _
          exact List.getElem?_set_ne hk
        · show (w.streams.set k _).length = _
          exact List.length_set _ _ _
        · show (w.frames ++ [Frame.tick k]).countP (Frame.isTickOf h) = _
          simp [List.countP_append, Frame.isTickOf, hk]
      · refine ⟨?_, ?_, rfl⟩
        · show (w.streams.set k _)[h]? = _
          exact List.getElem?_set_ne hk
        · show (w.streams.set k _).length = _
          exact List.length_set _ _ _

/-- Running the tick of stream `h`. -/
theorem fire_self (h : Nat) (s : Typing) (w : World R) (hs : w.streams[h]? = some s) :
    (fire (Frame.tick h) w).streams[h]? = some (tick s) ∧
    (fire (Frame.tick h) w).frames.countP (Frame.isTickOf h) =
      w.frames.countP (Frame.isTickOf h) + if (tick s).pending then 1 else 0 := by
  have hlt := lt_length_of_getElem? _ _ _ hs
  unfold fire
  simp only [hs]
  by_cases hp : (tick s).pending = true
  · simp only [hp, if_true]
    refine ⟨?_, ?_⟩
    · show (w.streams.set h (tick s))[h]? = _
      exact List.getElem?_set_self hlt
    · show (w.frames ++ [Frame.tick h]).countP (Frame.isTickOf h) = _
      simp [List.countP_append, Frame.isTickOf]
  · simp only [hp]
    refine ⟨?_, ?_⟩
    · show (w.streams.set h (tick s))[h]? = _
      exact List.getElem?_set_self hlt
    · show w.frames.countP (Frame.isTickOf h) = _
      simp

theorem isTickOf_eq_true (h : Nat) (f : Frame) (hf : f.isTickOf h = true) : f = Frame.tick h := by
  cases f with
  | tick k =>
    have : k = h := by simpa [Frame.isTickOf] using hf
    rw [this]
  | convoList frag => simp [Frame.isTickOf] at hf
  | messages frag => simp [Frame.isTickOf] at hf
  | addMessage div => simp [Frame.isTickOf] at hf

/-- Callbacks among which the tick of stream `h` does not occur leave it. -/
theorem fold_fire_other (h : Nat) (fs : List Frame) (hfs : fs.countP (Frame.isTickOf h) = 0)
    (w : World R) :
    (fs.foldl (fun acc f => fire f acc) w).streams[h]? = w.streams[h]? ∧
    (fs.foldl (fun acc f => fire f acc) w).streams.length = w.streams.length ∧
    (fs.foldl (fun acc f => fire f acc) w).frames.countP (Frame.isTickOf h) =
      w.frames.countP (Frame.isTickOf h) := by
  induction fs generalizing w with
  | nil => exact ⟨rfl, rfl, rfl⟩
  | cons f fs ih =>
    rw [List.countP_cons] at hfs
    have hf : f.isTickOf h = false := by
      cases hb : f.isTickOf h with
      | false => rfl
      | true =>
        have hone : (if f.isTickOf h = true then 1 else 0) = 1 := by
          rw [hb]
          rfl
        omega
    have hzero : (if f.isTickOf h = true then 1 else 0) = 0 := by
      rw [hf]
      rfl
    have hrest : fs.countP (Frame.isTickOf h) = 0 := by omega
    obtain ⟨a1, a2, a3⟩ := fire_other h f hf w
    obtain ⟨b1, b2, b3⟩ := ih hrest (fire f w)
    rw [List.foldl_cons, b1, b2, b3]
    exact ⟨a1, a2, a3⟩

/-- Callbacks among which the tick of stream `h` occurs once run it once. -/
theorem fold_fire_once (h : Nat) (fs : List Frame) (hfs : fs.countP (Frame.isTickOf h) = 1)
    (w : World R) (s : Typing) (hs : w.streams[h]? = some s) :
    (fs.foldl (fun acc f => fire f acc) w).streams[h]? = some (tick s) ∧
    (fs.foldl (fun acc f => fire f acc) w).frames.countP (Frame.isTickOf h) =
      w.frames.countP (Frame.isTickOf h) + if (tick s).pending then 1 else 0 := by
  induction fs generalizing w with
  | nil => simp at hfs
  | cons f fs ih =>
    rw [List.countP_cons] at hfs
    rw [List.foldl_cons]
    cases hb : f.isTickOf h with
    | true =>
      have hone : (if f.isTickOf h = true then 1 else 0) = 1 := by
        rw [hb]
        rfl
      rw [hone] at hfs
      have hrest : fs.countP (Frame.isTickOf h) = 0 := by omega
      rw [isTickOf_eq_true h f hb]
      obtain ⟨a1, a2⟩ := fire_self h s w hs
      obtain ⟨b1, _, b3⟩ := fold_fire_other h fs hrest (fire (Frame.tick h) w)
      rw [b1, b3]
      exact ⟨a1, a2⟩
    | false =>
      have hzero : (if f.isTickOf h = true then 1 else 0) = 0 := by
        rw [hb]
        rfl
      rw [hzero] at hfs
      have hrest : fs.countP (Frame.isTickOf h) = 1 := by omega
      obtain ⟨a1, _, a3⟩ := fire_other h f hb w
      obtain ⟨b1, b2⟩ := ih hrest (fire f w) (by rw [a1]; exact hs)
      rw [b1, b2, a3]
      exact ⟨rfl, rfl⟩

/-- A display frame advances stream `h` by one `nextFrame` step. -/
theorem displayFrame_streaming (h : Nat) (s : Typing) (w : World R) (hs : Streaming h s w) :
    Streaming h (nextFrame s) (displayFrame w) := by
  obtain ⟨hget, hcount⟩ := hs
  unfold displayFrame nextFrame Streaming
  have hstart : ({ w with frames := [] } : World R).streams[h]? = some s := hget
  cases hp : s.pending with
  | true =>
    rw [hp] at hcount
    obtain ⟨b1, b2⟩ := fold_fire_once h w.frames hcount { w with frames := [] } s hstart
    simp only [if_true]
    rw [b1, b2]
    exact ⟨rfl, by simp⟩
  | false =>
    rw [hp] at hcount
    obtain ⟨b1, _, b3⟩ :=
      fold_fire_other h w.frames (by simpa using hcount) { w with frames := [] }
    simp only [Bool.false_eq_true, if_false]
    rw [b1, b3, hp]
    exact ⟨hget, by simp⟩

/-- One event of the page: a display frame advances stream `h` by one step,
every other event leaves it as it is. -/
theorem step_streaming (E : Env R) (h : Nat) (s : Typing) (w : World R) (ev : Event)
    (hs : Streaming h s w) :
    Streaming h (if ev.isFrame then nextFrame s else s) (step E w ev) := by
  cases ev with
  | create title => exact (createConversation_undisturbed E h w title).streaming hs
  | select id => exact (setActiveConversation_undisturbed E h w id).streaming hs
  | rename id title => exact (renameConversation_undisturbed E h w id title).streaming hs
  | delete id => exact (deleteConversation_undisturbed E h w id).streaming hs
  | append role text => exact (appendMessage_undisturbed E h w role text).streaming hs
  | addMessage text me => exact (addMessage_undisturbed h w text me).streaming hs
  | stream fullText => exact streamBotReply_streaming h s w fullText hs
  | frame => exact displayFrame_streaming h s w hs

/-- Whatever happens on the page, stream `h` has made exactly one `nextFrame`
step per display frame. -/
theorem run_streaming (E : Env R) (h : Nat) (s : Typing) (w : World R) (events : List Event)
    (hs : Streaming h s w) :
    Streaming h (afterFrames (events.countP Event.isFrame) s) (run E w events) := by
  induction events using List.reverseRecOn with
  | nil => exact hs
  | append_singleton evs ev ih =>
    have hrun : run E w (evs ++ [ev]) = step E (run E w evs) ev := by
      simp [run, List.foldl_append]
    have hstep := step_streaming E h _ _ ev ih
    rw [hrun, List.countP_append]
    cases hf : ev.isFrame with
    | true =>
      rw [hf] at hstep
      simpa [List.countP_cons, hf, afterFrames] using hstep
    | false =>
      rw [hf] at hstep
      simpa [List.countP_cons, hf] using hstep

/-- Started on a page where no tick is registered under the new handle, the
stream is in its initial closure state with its first tick registered once. -/
theorem streamBotReply_starts (w : World R) (t : JSString)
    (hfresh : w.frames.countP (Frame.isTickOf w.streams.length) = 0) :
    Streaming w.streams.length (streamStart t) (streamBotReply w t).1 := by
  constructor
  · show (w.streams ++ [streamStart t])[w.streams.length]? = _
    simp
  · show (w.frames ++ [Frame.tick w.streams.length]).countP (Frame.isTickOf w.streams.length) = _
    rw [List.countP_append, hfresh]
    simp [Frame.isTickOf, streamStart]

theorem fire_streams_length (f : Frame) (w : World R) :
    (fire f w).streams.length = w.streams.length := by
  cases f with
  | convoList frag => rfl
  | messages frag => rfl
  | addMessage div => rfl
  | tick k =>
    unfold fire
    dsimp only
    split
    · rfl
    · split
      · show (w.streams.set k _).length = _
        exact List.length_set _ _ _
      · show (w.streams.set k _).length = _
        exact List.length_set _ _ _

theorem displayFrame_streams_length (w : World R) :
    (displayFrame w).streams.length = w.streams.length := by
  unfold displayFrame
  have key : ∀ (fs : List Frame) (acc : World R),
      (fs.foldl (fun acc f => fire f acc) acc).streams.length = acc.streams.length := by
    intro fs
    induction fs with
    | nil => intro acc; rfl
    | cons f fs ih =>
      intro acc
      rw [List.foldl_cons, ih, fire_streams_length]
  rw [key]

/-- Every event keeps the registered ticks within the streams that exist. -/
theorem step_ticksKnown (E : Env R) (w : World R) (ev : Event) (hw : TicksKnown w) :
    TicksKnown (step E w ev) := by
  have keep : ∀ w1 : World R, (∀ k, Undisturbed k w w1) → TicksKnown w1 := by
    intro w1 hu k hk
    rw [(hu k).2]
    apply hw
    rw [← (hu k).1]
    exact hk
  cases ev with
  | create title => exact keep _ (fun k => createConversation_undisturbed E k w title)
  | select id => exact keep _ (fun k => setActiveConversation_undisturbed E k w id)
  | rename id title => exact keep _ (fun k => renameConversation_undisturbed E k w id title)
  | delete id => exact keep _ (fun k => deleteConversation_undisturbed E k w id)
  | append role text => exact keep _ (fun k => appendMessage_undisturbed E k w role text)
  | addMessage text me => exact keep _ (fun k => addMessage_undisturbed k w text me)
  | stream fullText =>
    intro k hk
    have hlen : (step E w (Event.stream fullText)).streams.length = w.streams.length + 1 := by
      show (w.streams ++ [streamStart fullText]).length = _
      simp
    rw [hlen] at hk
    show (w.frames ++ [Frame.tick w.streams.length]).countP (Frame.isTickOf k) = 0
    have hne : ¬ w.streams.length = k := by omega
    rw [List.countP_append, hw k (by omega)]
    simp [Frame.isTickOf, hne]
  | frame =>
    intro k hk
    have hlen := displayFrame_streams_length w
    have hk0 : w.streams.length ≤ k := by
      show w.streams.length ≤ k
      have : (step E w Event.frame).streams.length = w.streams.length := hlen
      omega
    obtain ⟨_, _, b3⟩ := fold_fire_other k w.frames (hw k hk0) { w with frames := [] }
    show (displayFrame w).frames.countP (Frame.isTickOf k) = 0
    unfold displayFrame
    rw [b3]
    rfl

theorem run_ticksKnown (E : Env R) (w : World R) (events : List Event) (hw : TicksKnown w) :
    TicksKnown (run E w events) := by
  induction events generalizing w with
  | nil => exact hw
  | cons ev evs ih => exact ih (step E w ev) (step_ticksKnown E w ev hw)

theorem emptyWorld_ticksKnown : TicksKnown emptyWorld := fun _ _ => rfl

/-- C7, as stated, fails: `streamBotReply` returns `undefined`, which carries no
`cancel`; and after a conversation switch made while the stream is running the
next frame still runs its tick, writes the next prefix and registers the tick
again. -/
theorem C7_stream_returns_no_handle_counterexample :
    (streamBotReply (worldOf [blank [97] NEW_CHAT, blank [98] NEW_CHAT] (some [97]))
      (js "hello")).2 = JSValue.undefined ∧
    JSValue.hasProperty
      (streamBotReply (worldOf [blank [97] NEW_CHAT, blank [98] NEW_CHAT] (some [97]))
        (js "hello")).2 (js "cancel") = false ∧
    (displayFrame (setActiveConversation host
      (streamBotReply (worldOf [blank [97] NEW_CHAT, blank [98] NEW_CHAT] (some [97]))
        (js "hello")).1 [98])).streams.map (fun s => s.textContent) = [js "he"] ∧
    Frame.tick 0 ∈ (displayFrame (setActiveConversation host
      (streamBotReply (worldOf [blank [97] NEW_CHAT, blank [98] NEW_CHAT] (some [97]))
        (js "hello")).1 [98])).frames := by
  refine ⟨rfl, rfl, ?_, ?_⟩
  · rw [setActiveConversation_eq_of_ne_nil host _ _ (by simp [streamBotReply, worldOf,
      requestAnimationFrame])]
    decide
  · rw [setActiveConversation_eq_of_ne_nil host _ _ (by simp [streamBotReply, worldOf,
      requestAnimationFrame])]
    decide

/-- C7, amended: `streamBotReply` returns `undefined` (no handle) and registers
its first tick; there is no `cancel()`, and once started the stream cannot be
stopped.  No model operation removes a registered callback, and a tick that
runs before the cursor has reached the end writes its prefix and registers
itself again.  Whatever sequence of events follows the start (operations of
the model, further streams, display frames), the stream has made exactly one
step per display frame, its tick stays registered until the cursor has reached
the end, and after enough frames its div shows the whole reply. -/
theorem C7_stream_cannot_be_cancelled (E : Env R) (w : World R) (t : JSString) :
    (streamBotReply w t).2 = JSValue.undefined ∧
    (streamBotReply w t).1.frames = w.frames ++ [Frame.tick w.streams.length] ∧
    (streamBotReply w t).1.streams[w.streams.length]? = some (streamStart t) ∧
    (∀ (w1 : World R) (a b : JSString),
      w1.frames <+: (createConversation E w1 a).1.frames ∧
      w1.frames <+: (setActiveConversation E w1 a).frames ∧
      w1.frames <+: (renameConversation E w1 a b).frames ∧
      w1.frames <+: (deleteConversation E w1 a).frames ∧
      (appendMessage E w1 a b).frames = w1.frames) ∧
    (∀ (w1 : World R) (h : Nat) (s : Typing), w1.streams[h]? = some s →
      (tick s).pending = true →
      (fire (Frame.tick h) w1).frames = w1.frames ++ [Frame.tick h] ∧
      (fire (Frame.tick h) w1).streams[h]? = some (tick s)) ∧
    (TicksKnown w → ∀ events : List Event,
      (run E (streamBotReply w t).1 events).streams[w.streams.length]? =
        some (afterFrames (events.countP Event.isFrame) (streamStart t)) ∧
      (run E (streamBotReply w t).1 events).frames.countP (Frame.isTickOf w.streams.length) =
        (if (afterFrames (events.countP Event.isFrame) (streamStart t)).pending then 1 else 0) ∧
      (events.countP Event.isFrame < ticksClaimed t.length →
        (afterFrames (events.countP Event.isFrame) (streamStart t)).pending = true) ∧
      (ticksClaimed t.length ≤ events.countP Event.isFrame →
        (afterFrames (events.countP Event.isFrame) (streamStart t)).textContent = t ∧
        (afterFrames (events.countP Event.isFrame) (streamStart t)).pending = false)) := by
  refine ⟨rfl, rfl, ?_, ?_, ?_, ?_⟩
  · show (w.streams ++ [streamStart t])[w.streams.length]? = _
    simp
  · intro w1 a b
    exact ⟨createConversation_frames_kept E w1 a, setActiveConversation_frames_kept E w1 a,
      renameConversation_frames_kept E w1 a b, deleteConversation_frames_kept E w1 a,
      appendMessage_frames E w1 a b⟩
  · intro w1 h s hs hp
    exact fire_tick_pending w1 h s hs hp
  · intro hw events
    have hrun := run_streaming E w.streams.length (streamStart t) (streamBotReply w t).1 events
      (streamBotReply_starts w t (hw _ (le_refl _)))
    refine ⟨hrun.1, hrun.2, ?_, ?_⟩
    · intro hlt
      rw [afterFrames_eq t _ (le_of_lt hlt)]
      simp [hlt]
    · intro hge
      rw [afterFrames_of_ge t _ hge, afterFrames_eq t _ (le_refl _)]
      have hpos := ticksClaimed_pos t.length
      have h0 : ¬ ticksClaimed t.length = 0 := by omega
      simp only [h0, if_false]
      exact ⟨List.take_of_length_le (len_le_ticksClaimed_mul t.length), by simp⟩

/-- C7 amended, at the reply `"hello"` started on an empty page: after a
conversation is created and deleted, another stream is started and three
display frames have passed, the stream has made its three steps. -/
theorem C7_stream_witness :
    TicksKnown emptyWorld ∧
    (run host (streamBotReply emptyWorld (js "hello")).1
      [Event.create NEW_CHAT, Event.frame, Event.delete [117, 48], Event.stream (js "x"),
        Event.frame, Event.select [122], Event.frame]).streams[0]? =
      some (afterFrames 3 (streamStart (js "hello"))) ∧
    (afterFrames 3 (streamStart (js "hello"))).textContent = js "hello" :=
  ⟨emptyWorld_ticksKnown,
    ((C7_stream_cannot_be_cancelled host emptyWorld (js "hello")).2.2.2.2.2
      emptyWorld_ticksKnown
      [Event.create NEW_CHAT, Event.frame, Event.delete [117, 48], Event.stream (js "x"),
        Event.frame, Event.select [122], Event.frame]).1,
    by decide⟩

/-! ## Render requests are not coalesced -/

theorem createConversation_countP (E : Env R) (w : World R) (title : JSString) :
    (createConversation E w title).1.frames.countP Frame.isConvoList =
      w.frames.countP Frame.isConvoList + 1 ∧
    (createConversation E w title).1.frames.countP Frame.isMessages =
      w.frames.countP Frame.isMessages + 1 := by
  rw [createConversation_frames]
  simp [List.countP_append, List.countP_cons, Frame.isConvoList, Frame.isMessages]

/-- C9, as stated, fails: two `createConversation` calls before the next frame
leave two callbacks pending for the conversation list and two for the message
list. -/
theorem C9_two_creates_two_paints_counterexample :
    (createConversation host (createConversation host emptyWorld NEW_CHAT).1
      NEW_CHAT).1.frames.countP Frame.isConvoList = 2 ∧
    (createConversation host (createConversation host emptyWorld NEW_CHAT).1
      NEW_CHAT).1.frames.countP Frame.isMessages = 2 := by
  rw [(createConversation_countP host _ NEW_CHAT).1, (createConversation_countP host _ NEW_CHAT).2,
    (createConversation_countP host _ NEW_CHAT).1, (createConversation_countP host _ NEW_CHAT).2]
  exact ⟨rfl, rfl⟩

/-- C9, amended: render requests are not coalesced.  Every `renderConvos` call
on a non-empty collection registers one more callback for the conversation
list, carrying the list as it is at the time of the call; every
`renderMessages` call whose active conversation exists registers one more
callback for the message list; so a `createConversation` call adds one pending
callback per view, and `n` requests before a frame leave `n` callbacks pending
for that view; each callback, when it runs, replaces the children of its view
by the fragment built when it was requested. -/
theorem C9_each_request_registers_a_callback (E : Env R) (w : World R) :
    (w.convos ≠ [] →
      (renderConvos E w).frames = w.frames ++ [Frame.convoList (convoFragment w)]) ∧
    (∀ c, findActive w = some c →
      (renderMessages w).frames =
        w.frames ++
          [Frame.messages (c.messages.map fun m => MsgNode.static (m.role == USER) m.text)]) ∧
    (∀ title,
      (createConversation E w title).1.frames.countP Frame.isConvoList =
        w.frames.countP Frame.isConvoList + 1 ∧
      (createConversation E w title).1.frames.countP Frame.isMessages =
        w.frames.countP Frame.isMessages + 1) ∧
    (∀ titles,
      (createAll E w titles).frames.countP Frame.isConvoList =
        w.frames.countP Frame.isConvoList + titles.length ∧
      (createAll E w titles).frames.countP Frame.isMessages =
        w.frames.countP Frame.isMessages + titles.length) ∧
    (∀ listFrag msgFrag,
      (fire (Frame.convoList listFrag) w).convoListEl = listFrag ∧
      (fire (Frame.messages msgFrag) w).messagesEl = msgFrag) := by
  refine ⟨renderConvos_frames_of_ne_nil E w, renderMessages_frames_of_active w,
    createConversation_countP E w, ?_, fun _ _ => ⟨rfl, rfl⟩⟩
  intro titles
  induction titles using List.reverseRecOn with
  | nil => exact ⟨rfl, rfl⟩
  | append_singleton ts t ih =>
    rw [createAll_snoc, (createConversation_countP E _ t).1, (createConversation_countP E _ t).2,
      ih.1, ih.2, List.length_append, List.length_singleton]
    exact ⟨by omega, by omega⟩

/-- C9 amended, at a concrete page: one render request on a page with one
conversation and nothing pending. -/
theorem C9_request_witness :
    (worldOf [blank [97] NEW_CHAT] (some [97])).convos ≠ [] ∧
    (renderConvos host (worldOf [blank [97] NEW_CHAT] (some [97]))).frames =
      (worldOf [blank [97] NEW_CHAT] (some [97])).frames ++
        [Frame.convoList (convoFragment (worldOf [blank [97] NEW_CHAT] (some [97])))] :=
  ⟨by simp [worldOf],
    (C9_each_request_registers_a_callback host (worldOf [blank [97] NEW_CHAT] (some [97]))).1
      (by simp [worldOf])⟩

/-! ## Persistence round trip -/

/-- Were the identifier `convos` of line 37 bound to the collection, a
successful save followed by a load would give back the first `MAX_CONVOS`
conversations, in order. -/
theorem loadConvos_saveConvos_of_bound (E : Env R) (w : World R)
    (hbound : E.outerConvos = some (JSValue.arr (w.convos.map Conversation.toJS)))
    (hcodec : ∀ v, E.parse (E.stringify v) = some v) (haccept : ∀ raw, E.accepts raw = true) :
    loadConvos E (saveConvos E w) = (w.convos.take MAX_CONVOS).map Conversation.toJS := by
  unfold saveConvos
  rw [hbound]
  simp only [JSValue.slice0, haccept, if_true]
  unfold loadConvos safeParse
  simp only [hcodec, List.map_take]

/-- C5 fails on the code: with a storage that takes every write and a JSON
codec that round-trips, `saveConvos` on a page holding one conversation throws
inside its `try` before reaching `setItem` (the identifier `convos` is not in
its scope), logs the warning and leaves the slot empty; `loadConvos` afterwards
returns the empty collection, not the saved one. -/
theorem C5_save_never_reaches_storage :
    (∀ v, host.parse (host.stringify v) = some v) ∧
    (∀ raw, host.accepts raw = true) ∧
    (worldOf [blank [97] NEW_CHAT] (some [97])).convos.length = 1 ∧
    (saveConvos host (worldOf [blank [97] NEW_CHAT] (some [97]))).setItemCalls = 0 ∧
    (saveConvos host (worldOf [blank [97] NEW_CHAT] (some [97]))).warnings = 1 ∧
    (saveConvos host (worldOf [blank [97] NEW_CHAT] (some [97]))).slot.isNone = true ∧
    (loadConvos host (saveConvos host (worldOf [blank [97] NEW_CHAT] (some [97])))).length = 0 :=
  ⟨fun _ => rfl, fun _ => rfl, rfl, rfl, rfl, rfl, rfl⟩

end ChatUI
